import Mathlib

/-!
# Wakeify — verification of the alarm-playback core

Shallow embedding of the Wakeify repository (Spotify Connect wake-and-play
orchestrator) and proofs about it.

Sources embedded here:
* `src/playback/alarm_playback/orchestrator.py` — `AlarmPlaybackEngine`
  (`_pick_device`, `_failover`, `play_alarm`, circuit-breaker accounting);
* `src/playback/alarm_playback/playback.py` — `stage_device`, `start_play`,
  `verify_device_ready`;
* `src/app/device_registry.py` — cpath normalization inside
  `_get_friendly_name_from_device_info` and the cpath stored by
  `_create_device_profile`;
* `src/app/spotify_crypto.py` — DH / HMAC-SHA1 / AES-128-CTR encrypted blob;
* `src/app/spotify_client.py` — `AlarmSpotifyClient.get_device_by_name`.

Modules of the repository that the orchestrator imports but whose sources are
not part of this tree (`alarm_playback/config.py`, `models.py`, `discovery.py`,
`zeroconf_client.py`, `spotify_api.py`, `fallback.py`) are modelled from the
specification; every such definition carries a doc comment starting with
`Modelled from the spec:`.

Python strings are modelled as Lean `String` (or `List Char` where character
level reasoning is required); byte strings as `List Nat` with bytes `< 256`;
wall-clock time as a natural number of milliseconds threaded through an
explicit state.  All network calls are oracles supplied by an `Env` record:
each call yields either a value or a raised exception (its message string),
plus the time the call took.
-/

namespace Wakeify

/-! ## Generic list helpers -/

/-- Splitting characterization of `List.find?`: a found element is the first
one satisfying the predicate. -/
theorem find?_split {α : Type} (p : α → Bool) :
    ∀ (l : List α) (d : α), l.find? p = some d →
      ∃ l₁ l₂, l = l₁ ++ d :: l₂ ∧ p d = true ∧ ∀ x ∈ l₁, p x = false := by
  intro l
  induction l with
  | nil => intro d h; simp [List.find?] at h
  | cons a t ih =>
    intro d h
    by_cases hp : p a
    · refine ⟨[], t, ?_, ?_, ?_⟩
      · simp only [List.find?, hp] at h
        simp at h
        simp [h]
      · simp only [List.find?, hp] at h
        simp at h
        simpa [← h] using hp
      · simp
    · simp only [List.find?] at h
      rw [Bool.of_not_eq_true hp] at h
      obtain ⟨l₁, l₂, hsplit, hd, hall⟩ := ih d h
      refine ⟨a :: l₁, l₂, by simp [hsplit], hd, ?_⟩
      intro x hx
      rcases List.mem_cons.mp hx with rfl | hx
      · exact Bool.of_not_eq_true hp
      · exact hall x hx

/-! ## Data model

`CloudDevice` mirrors `models.CloudDevice` as exercised by
`tests/test_playback.py::test_cloud_device_from_spotify_dict` and by the spec
(§3): `id, name, is_active, volume_percent, device_type, is_private_session,
is_restricted`. -/

/-- Modelled from the spec: `alarm_playback/models.py` is not in the tree.
A device row returned by the cloud `Devices()` call (spec §3 CloudDevice,
fields confirmed by `tests/test_playback.py`). -/
structure CloudDevice where
  id : String
  name : String
  is_active : Bool := false
  volume_percent : Nat := 0
  device_type : String := ""
  is_private_session : Bool := false
  is_restricted : Bool := false
deriving DecidableEq, Repr

/-- Modelled from the spec: `alarm_playback/config.py` is not in the tree.
Persistent per-device profile (spec §3 DeviceProfile).  Python `None`/empty
optional string fields are modelled as `""`, absent port as `0`. -/
structure DeviceProfile where
  name : String
  instance_name : String := ""
  spotify_device_names : List String := []
  ip : String := ""
  port : Nat := 0
  cpath : String := ""
  volume_preset : Nat := 30
  max_wake_wait_s : Nat := 22
deriving DecidableEq, Repr

/-- Modelled from the spec: `DeviceProfile.get_all_matching_names()` returns
`{name, instance_name} ∪ spotify_device_names` with empty entries removed. -/
def DeviceProfile.get_all_matching_names (p : DeviceProfile) : List String :=
  ([p.name, p.instance_name] ++ p.spotify_device_names).filter (fun s => s ≠ "")

/-! ## `AlarmPlaybackEngine._pick_device` (orchestrator.py lines 85-128)

The engine's registry `self._registry` is a name-keyed dictionary of
`DeviceProfile`s; we model it as a list looked up by name (first hit). -/

/-- Python `str.strip()` on a character list: drop leading and trailing
whitespace. -/
def pyStrip (l : List Char) : List Char :=
  ((l.dropWhile Char.isWhitespace).reverse.dropWhile Char.isWhitespace).reverse

/-- Python `str.lower()` (per-character ASCII lowering). -/
def pyLower (s : String) : String := ⟨s.data.map Char.toLower⟩

/-- Python `name.lower().strip()` — the normalization `_pick_device` applies to
both the stored matching names and each cloud device name. -/
def normName (s : String) : String := ⟨pyStrip (pyLower s).data⟩

/-- Registry lookup, `AlarmPlaybackEngine._get_target_profile` (Python raises
`ValueError` when absent; we return `none`). -/
def lookupProfile (registry : List DeviceProfile) (name : String) :
    Option DeviceProfile :=
  registry.find? (fun p => p.name = name)

/-- The names `_pick_device` will match against: the stored profile's
`get_all_matching_names()`, or just the target name when no profile exists
(orchestrator.py lines 96-102). -/
def matchingNamesFor (registry : List DeviceProfile) (targetName : String) :
    List String :=
  match lookupProfile registry targetName with
  | some p => p.get_all_matching_names
  | none => [targetName]

/-- The case-insensitive lookup set
`{name.lower().strip() for name in matching_names if name}`
(orchestrator.py line 105). -/
def matchingNamesSet (registry : List DeviceProfile) (targetName : String) :
    List String :=
  ((matchingNamesFor registry targetName).filter (fun s => s ≠ "")).map normName

/-- The predicate of the matching loop (orchestrator.py lines 108-114): skip
devices with empty (falsy) `name`, match when the normalized name is in the
stored set. -/
def deviceMatches (registry : List DeviceProfile) (targetName : String)
    (d : CloudDevice) : Bool :=
  d.name ≠ "" && normName d.name ∈ matchingNamesSet registry targetName

/-- `AlarmPlaybackEngine._pick_device` (orchestrator.py lines 85-128): exact
matching only, first match in the cloud's order wins; empty device list or
falsy target name yield `None`. -/
def pickDevice (registry : List DeviceProfile) (devices : List CloudDevice)
    (targetName : String) : Option CloudDevice :=
  if devices.isEmpty || targetName = "" then none
  else devices.find? (deviceMatches registry targetName)

/-! ### C1 — exact-match only -/

/-- C1 (amended): when `_pick_device` returns a device `d`, the normalized
`d.name` is an element of the normalized matching-name set of the target
profile (just the normalized target name when no profile exists), `d.name` is
non-empty, and `d` is the first device in the cloud's order with a
*non-empty* name whose normalized name is in that set.  In particular no
device is ever returned on a mere prefix or substring relation: membership of
the full normalized name is required. -/
theorem pick_device_exact_match (registry : List DeviceProfile)
    (devices : List CloudDevice) (targetName : String) (d : CloudDevice)
    (h : pickDevice registry devices targetName = some d) :
    (normName d.name ∈ matchingNamesSet registry targetName
        ∧ (lookupProfile registry targetName = none →
            matchingNamesSet registry targetName = [normName targetName]))
      ∧ d.name ≠ ""
      ∧ ∃ l₁ l₂, devices = l₁ ++ d :: l₂ ∧
          ∀ e ∈ l₁, e.name = "" ∨ normName e.name ∉ matchingNamesSet registry targetName := by
  unfold pickDevice at h
  split at h
  · exact absurd h (by simp)
  · rename_i hguard
    have hne : targetName ≠ "" := by
      intro hcon
      exact hguard (by simp [hcon])
    obtain ⟨l₁, l₂, hsplit, hd, hall⟩ := find?_split _ devices d h
    unfold deviceMatches at hd
    simp only [Bool.and_eq_true, decide_eq_true_eq] at hd
    obtain ⟨hdna, hdmem⟩ := hd
    refine ⟨⟨hdmem, ?_⟩, hdna, l₁, l₂, hsplit, ?_⟩
    · intro hnone
      simp [matchingNamesSet, matchingNamesFor, hnone, List.filter, hne]
    · intro e he
      have := hall e he
      unfold deviceMatches at this
      simp only [Bool.and_eq_false_iff, decide_eq_false_iff_not, not_not] at this
      rcases this with h1 | h2
      · left; exact h1
      · right; exact h2

/-- Witness for C1's theorem at a concrete input: the profile "Kitchen" whose
cloud list is `[Echo, Kitchen]` picks the `Kitchen` device, whose normalized
name is in the matching set. -/
theorem pick_device_exact_match_witness :
    pickDevice [{ name := "Kitchen" }]
        [⟨"id0", "Office", false, 0, "", false, false⟩,
         ⟨"id1", "Kitchen", false, 0, "", false, false⟩] "Kitchen" =
      some ⟨"id1", "Kitchen", false, 0, "", false, false⟩
      ∧ normName "Kitchen" ∈ matchingNamesSet [{ name := "Kitchen" }] "Kitchen" := by
  refine ⟨by decide, ?_⟩
  have h := pick_device_exact_match [{ name := "Kitchen" }]
    [⟨"id0", "Office", false, 0, "", false, false⟩,
     ⟨"id1", "Kitchen", false, 0, "", false, false⟩] "Kitchen"
    ⟨"id1", "Kitchen", false, 0, "", false, false⟩ (by decide)
  exact h.1.1

/-- C1 counterexample: with target name `" "` (whitespace, truthy in Python)
and no profile, the normalized matching set is `{""}`.  The cloud list
`[⟨"e",""⟩, ⟨"k"," "⟩]` has as its *first* element whose normalized name lies
in the set the device `⟨"e",""⟩` (`normName "" = "" ∈ {""}`), yet
`_pick_device` skips devices with falsy names and returns `⟨"k"," "⟩`:
the claim's "first element of L whose normalized name is in the set" is
violated. -/
theorem pick_device_first_element_counterexample :
    pickDevice [] [⟨"e", "", false, 0, "", false, false⟩,
                   ⟨"k", " ", false, 0, "", false, false⟩] " " =
        some ⟨"k", " ", false, 0, "", false, false⟩
      ∧ normName "" ∈ matchingNamesSet [] " "
      ∧ (⟨"e", "", false, 0, "", false, false⟩ : CloudDevice) ≠
          ⟨"k", " ", false, 0, "", false, false⟩ := by
  refine ⟨by decide, by decide, by decide⟩

/-! ## cpath normalization (device_registry.py)

`DeviceRegistry._get_friendly_name_from_device_info` (lines 155-164) builds the
getInfo URL from a normalized cpath; `DeviceRegistry._create_device_profile`
(line 271) stores `discovery_result.cpath or "/"` in the profile.  Strings are
`List Char` here so that the proofs can reason per character. -/

/-- The default control path `"/spotifyconnect/zeroconf"`. -/
def defaultCpath : List Char := "/spotifyconnect/zeroconf".data

/-- Python `s.rstrip("/")`: remove all trailing `'/'` characters. -/
def pyRstripSlash (l : List Char) : List Char :=
  (l.reverse.dropWhile (fun c => c = '/')).reverse

/-- `cpath = discovery_result.cpath or default` (device_registry.py
line 157): Python `or` replaces a falsy (empty) string by the default. -/
def cpathOrDefault (c : List Char) : List Char :=
  if c = [] then defaultCpath else c

/-- `if cpath == "/" or not cpath or cpath.strip() == "": cpath = default`
(device_registry.py lines 159-160). -/
def cpathCollapseEmpty (c : List Char) : List Char :=
  if c = ['/'] ∨ c = [] ∨ c.all Char.isWhitespace then defaultCpath else c

/-- `if not cpath.startswith("/"): cpath = "/" + cpath` (device_registry.py
lines 161-162). -/
def cpathEnsureSlash (c : List Char) : List Char :=
  if c.head? = some '/' then c else '/' :: c

/-- The cpath normalization of
`DeviceRegistry._get_friendly_name_from_device_info` (device_registry.py
lines 157-164): default on falsy, collapse `"/"`/whitespace-only to the
default, prepend `'/'` when missing, strip trailing slashes
(`cpath.rstrip("/")`). -/
def normalizeCpath (c : List Char) : List Char :=
  pyRstripSlash (cpathEnsureSlash (cpathCollapseEmpty (cpathOrDefault c)))

/-- The `cpath` field stored by `DeviceRegistry._create_device_profile`
(device_registry.py line 271): `discovery_result.cpath or "/"` — the raw
discovered value, not the normalized one. -/
def storedProfileCpath (discoveredCpath : List Char) : List Char :=
  if discoveredCpath = [] then ['/'] else discoveredCpath

/-! ### C5 — cpath normalization -/

/-- `dropWhile` leaves a list whose head fails the predicate. -/
theorem head?_dropWhile_not {α : Type} (p : α → Bool) :
    ∀ l : List α, ∀ x, (l.dropWhile p).head? = some x → p x = false := by
  intro l
  induction l with
  | nil => intro x h; simp [List.dropWhile] at h
  | cons a t ih =>
    intro x h
    rw [List.dropWhile_cons] at h
    split at h
    · exact ih x h
    · rename_i hpa
      simp at h
      subst h
      exact Bool.of_not_eq_true hpa

/-- An element failing the predicate keeps `dropWhile` from emptying the
list. -/
theorem dropWhile_ne_nil_of_mem {α : Type} (p : α → Bool) :
    ∀ l : List α, ∀ x ∈ l, p x = false → l.dropWhile p ≠ [] := by
  intro l
  induction l with
  | nil => intro x hx; simp at hx
  | cons a t ih =>
    intro x hx hpx
    rw [List.dropWhile_cons]
    rcases List.mem_cons.mp hx with rfl | hx
    · simp [hpx]
    · split
      · exact ih x hx hpx
      · simp

/-- `pyRstripSlash` output is an initial segment of its input. -/
theorem pyRstripSlash_isPrefixOf (l : List Char) : pyRstripSlash l <+: l := by
  unfold pyRstripSlash
  refine ⟨(l.reverse.takeWhile (fun c => c = '/')).reverse, ?_⟩
  rw [← List.reverse_append, List.takeWhile_append_dropWhile, List.reverse_reverse]

/-- `pyRstripSlash` output never ends in `'/'`. -/
theorem pyRstripSlash_no_trailing (l : List Char) :
    (pyRstripSlash l).getLast? ≠ some '/' := by
  unfold pyRstripSlash
  intro h
  rw [List.getLast?_reverse] at h
  have := head?_dropWhile_not (fun c => c = '/') l.reverse _ h
  simp at this

/-- `pyRstripSlash` keeps any element that is not `'/'`. -/
theorem pyRstripSlash_ne_nil (l : List Char) (x : Char) (hx : x ∈ l)
    (hxs : x ≠ '/') : pyRstripSlash l ≠ [] := by
  unfold pyRstripSlash
  intro h
  have h2 : l.reverse.dropWhile (fun c => c = '/') = [] := by
    have := congrArg List.reverse h
    simpa using this
  exact dropWhile_ne_nil_of_mem (fun c => c = '/') l.reverse x
    (by simpa using hx) (by simpa using hxs) h2

/-- C5 (amended): `normalizeCpath` maps `""` and `"/"` to
`/spotifyconnect/zeroconf`; for every input containing at least one character
other than `'/'` the result starts with `'/'` and never ends with `'/'`.
(The unamended claim fails on inputs made only of two or more slashes, which
normalize to the empty string, and on the stored profile cpath, which is the
raw discovered value — see the counterexample.) -/
theorem normalizeCpath_wellformed (c : List Char)
    (hc : ∃ x ∈ c, x ≠ '/') :
    normalizeCpath [] = defaultCpath
      ∧ normalizeCpath ['/'] = defaultCpath
      ∧ (normalizeCpath c).head? = some '/'
      ∧ (normalizeCpath c).getLast? ≠ some '/' := by
  refine ⟨by decide, by decide, ?_, ?_⟩
  · -- head is '/': the slash-ensured string starts with '/', keeps a
    -- non-slash element, and rstrip only removes trailing characters.
    obtain ⟨x, hx, hxs⟩ := hc
    have hcne : c ≠ [] := by
      intro h; subst h; simp at hx
    set c3 := cpathEnsureSlash (cpathCollapseEmpty (cpathOrDefault c)) with hc3
    have h1 : cpathOrDefault c = c := if_neg hcne
    have hmem : ∃ y ∈ c3, y ≠ '/' := by
      rw [hc3, h1]
      unfold cpathCollapseEmpty
      split
      · exact ⟨'s', by decide, by decide⟩
      · unfold cpathEnsureSlash
        split
        · exact ⟨x, hx, hxs⟩
        · exact ⟨x, by simp [hx], hxs⟩
    have hhead : c3.head? = some '/' := by
      rw [hc3]
      unfold cpathEnsureSlash
      split
      · assumption
      · rfl
    obtain ⟨y, hy, hys⟩ := hmem
    have hne := pyRstripSlash_ne_nil c3 y hy hys
    have hpre := pyRstripSlash_isPrefixOf c3
    obtain ⟨t, ht⟩ := hpre
    show (pyRstripSlash c3).head? = some '/'
    cases hl : pyRstripSlash c3 with
    | nil => exact absurd hl hne
    | cons a r =>
      rw [hl] at ht
      rw [← ht] at hhead
      simpa using hhead
  · exact pyRstripSlash_no_trailing _

/-- Witness for C5's amended theorem: `"/a/"` normalizes to `"/a"`, which
starts with `'/'` and does not end with `'/'`. -/
theorem normalizeCpath_wellformed_witness :
    (∃ x ∈ "/a/".data, x ≠ '/')
      ∧ (normalizeCpath "/a/".data).head? = some '/'
      ∧ (normalizeCpath "/a/".data).getLast? ≠ some '/' := by
  refine ⟨by decide, ?_, ?_⟩
  · exact (normalizeCpath_wellformed "/a/".data (by decide)).2.2.1
  · exact (normalizeCpath_wellformed "/a/".data (by decide)).2.2.2

/-- C5 counterexample: `normalizeCpath "//"` is the empty string — it does not
start with `'/'` — and the cpath stored in a `DeviceProfile` is the raw
discovered value `"/a/"`, which ends with `'/'` and differs from its
normalization. -/
theorem normalizeCpath_counterexample :
    normalizeCpath "//".data = []
      ∧ storedProfileCpath "/a/".data = "/a/".data
      ∧ "/a/".data.getLast? = some '/'
      ∧ storedProfileCpath "/a/".data ≠ normalizeCpath "/a/".data := by
  refine ⟨by decide, by decide, by decide, by decide⟩

/-! ## Simple blob fallback (spotify_crypto.py lines 231-288)

A Python token dict is an association list of string keys; `dict.get` is
first-key lookup. -/

/-- `token.get(key)` on a Python dict modelled as an association list. -/
def dictGet (token : List (String × String)) (key : String) : Option String :=
  (token.find? (fun kv => kv.1 = key)).map (·.2)

/-- `generate_spotify_blob_simple` (spotify_crypto.py lines 231-257): return
the OAuth `access_token` when present and truthy, else `username:password`.
(The enclosing `try` cannot fail, so the `return ""` arm is unreachable.) -/
def generate_spotify_blob_simple (username password : String)
    (token : List (String × String)) : String :=
  match dictGet token "access_token" with
  | some accessToken =>
      if accessToken ≠ "" then accessToken else username ++ ":" ++ password
  | none => username ++ ":" ++ password

/-- `generate_spotify_blob` (spotify_crypto.py lines 260-288): try the
encrypted blob; on any crypto exception fall back to
`(generate_spotify_blob_simple(...), "")`.  The encrypted-blob attempt draws
randomness inside the library, so its outcome is an explicit parameter. -/
def generate_spotify_blob (cryptoResult : Except String (String × String))
    (username password : String) (token : List (String × String)) :
    String × String :=
  match cryptoResult with
  | .ok pair => pair
  | .error _ => (generate_spotify_blob_simple username password token, "")

/-! ### C9 — SimpleBlob fallback -/

/-- C9 counterexample: with `token = [("access_token", "")]` (an empty, falsy
access token) `generate_spotify_blob_simple` returns `"alice:pw"`, not the
token's `access_token` value `""`. -/
theorem simple_blob_counterexample :
    dictGet [("access_token", "")] "access_token" = some ""
      ∧ generate_spotify_blob_simple "alice" "pw" [("access_token", "")] = "alice:pw"
      ∧ generate_spotify_blob_simple "alice" "pw" [("access_token", "")] ≠ "" := by
  refine ⟨by decide, by decide, by decide⟩

/-- C9 (amended): `generate_spotify_blob_simple` returns the token's
`access_token` value whenever that entry is present and non-empty, and
`username:password` otherwise; when the encrypted-blob path fails,
`generate_spotify_blob` pairs this simple blob with an empty client key. -/
theorem simple_blob_spec (username password : String)
    (token : List (String × String)) (e : String) :
    (∀ accessToken, dictGet token "access_token" = some accessToken →
        accessToken ≠ "" →
        generate_spotify_blob_simple username password token = accessToken)
      ∧ (dictGet token "access_token" = none →
          generate_spotify_blob_simple username password token =
            username ++ ":" ++ password)
      ∧ (dictGet token "access_token" = some "" →
          generate_spotify_blob_simple username password token =
            username ++ ":" ++ password)
      ∧ generate_spotify_blob (.error e) username password token =
          (generate_spotify_blob_simple username password token, "") := by
  refine ⟨?_, ?_, ?_, rfl⟩
  · intro accessToken hat hne
    unfold generate_spotify_blob_simple
    rw [hat]
    simp [hne]
  · intro hat
    unfold generate_spotify_blob_simple
    rw [hat]
  · intro hat
    unfold generate_spotify_blob_simple
    rw [hat]
    simp

/-- Witness for C9's amended theorem: a present, non-empty access token is
returned as the blob, and the crypto-failure pairing uses `""` as the client
key. -/
theorem simple_blob_spec_witness :
    dictGet [("access_token", "tok123")] "access_token" = some "tok123"
      ∧ generate_spotify_blob_simple "u" "p" [("access_token", "tok123")] = "tok123"
      ∧ generate_spotify_blob (.error "boom") "u" "p" [("access_token", "tok123")] =
          ("tok123", "") := by
  have h := simple_blob_spec "u" "p" [("access_token", "tok123")] "boom"
  refine ⟨by decide, h.1 "tok123" (by decide) (by decide), ?_⟩
  rw [h.2.2.2, h.1 "tok123" (by decide) (by decide)]

/-! ## Web-interface device lookup (spotify_client.py lines 194-213) -/

/-- A device dict as consumed by `AlarmSpotifyClient.get_device_by_name`
(only `name` and `id` are read). -/
structure WebDevice where
  id : String
  name : String
deriving DecidableEq, Repr

/-- Python `needle in haystack` — substring containment on strings. -/
def strContains (haystack needle : String) : Prop :=
  needle.data <:+: haystack.data

instance (h n : String) : Decidable (strContains h n) := by
  unfold strContains
  infer_instance

/-- `AlarmSpotifyClient.get_device_by_name` (spotify_client.py lines
194-213): exact name match first, then case-insensitive, then substring
(`device_name.lower() in device['name'].lower()`). -/
def get_device_by_name (devices : List WebDevice) (device_name : String) :
    Option WebDevice :=
  match devices.find? (fun d => d.name = device_name) with
  | some d => some d
  | none =>
    match devices.find? (fun d => pyLower d.name = pyLower device_name) with
    | some d => some d
    | none =>
      devices.find? (fun d => strContains (pyLower d.name) (pyLower device_name))

/-! ### C10 — web lookup is not exact-match -/

/-- C10: the web-interface lookup is not exact-match.  Any returned device's
lowercased name merely *contains* the lowercased requested name; an exact
match is preferred, then a case-insensitive match, and otherwise the first
device whose lowercased name contains the lowercased request is returned —
so a partial name can select a device. -/
theorem get_device_by_name_staged (devices : List WebDevice)
    (device_name : String) :
    (∀ d, get_device_by_name devices device_name = some d →
        strContains (pyLower d.name) (pyLower device_name))
      ∧ (∀ d, devices.find? (fun d => d.name = device_name) = some d →
          get_device_by_name devices device_name = some d)
      ∧ (devices.find? (fun d => d.name = device_name) = none →
          ∀ d, devices.find? (fun d => pyLower d.name = pyLower device_name) = some d →
            get_device_by_name devices device_name = some d)
      ∧ (devices.find? (fun d => d.name = device_name) = none →
          devices.find? (fun d => pyLower d.name = pyLower device_name) = none →
          get_device_by_name devices device_name =
            devices.find? (fun d => strContains (pyLower d.name) (pyLower device_name))) := by
  refine ⟨?_, ?_, ?_, ?_⟩
  · intro d h
    unfold get_device_by_name at h
    split at h
    · rename_i d' hd'
      have hpred := List.find?_some hd'
      simp only [decide_eq_true_eq] at hpred
      simp only [Option.some.injEq] at h
      subst h
      rw [hpred]
      exact ⟨[], [], by simp⟩
    · split at h
      · rename_i d' hd'
        have hpred := List.find?_some hd'
        simp only [decide_eq_true_eq] at hpred
        simp only [Option.some.injEq] at h
        subst h
        rw [hpred]
        exact ⟨[], [], by simp⟩
      · have hpred := List.find?_some h
        simpa only [decide_eq_true_eq] using hpred
  · intro d h
    unfold get_device_by_name
    rw [h]
  · intro h1 d h2
    unfold get_device_by_name
    rw [h1, h2]
  · intro h1 h2
    unfold get_device_by_name
    rw [h1, h2]

/-- Witness for C10: the partial request `"itch"` selects the device named
`"Kitchen Speaker"` even though it matches no name exactly. -/
theorem get_device_by_name_staged_witness :
    get_device_by_name [⟨"d1", "Kitchen Speaker"⟩] "itch" = some ⟨"d1", "Kitchen Speaker"⟩
      ∧ strContains (pyLower "Kitchen Speaker") (pyLower "itch")
      ∧ "itch" ≠ "Kitchen Speaker" := by
  have h := (get_device_by_name_staged [⟨"d1", "Kitchen Speaker"⟩] "itch").1
    ⟨"d1", "Kitchen Speaker"⟩
  refine ⟨by decide, ?_, by decide⟩
  exact h (by decide)

/-! ## Spotify ZeroConf crypto (spotify_crypto.py)

Byte strings are `List Nat` with entries `< 256`.  The Python code delegates
SHA-1, HMAC and AES-128-CTR to libraries (`hashlib`, `hmac`, `cryptography`);
those standard algorithms are embedded here in full so that
`generate_encrypted_blob` is a complete pure function of its random draws
(DH private key, device public bytes, iv), which the source obtains from
`os.urandom`. -/

/-- Big-endian byte decoding, Python `int.from_bytes(bs, 'big')`. -/
def natFromBytesBE (bs : List Nat) : Nat :=
  bs.foldl (fun acc b => acc * 256 + b) 0

/-- Big-endian byte encoding with fixed width, Python `n.to_bytes(len, 'big')`
(truncating high bits instead of raising). -/
def natToBytesBE : Nat → Nat → List Nat
  | 0, _ => []
  | k + 1, n => natToBytesBE k (n / 256) ++ [n % 256]

/-- Modular exponentiation (square and multiply) — the arithmetic inside the
library's DH `exchange`. -/
def powMod (b e m : Nat) : Nat :=
  if e = 0 then 1 % m
  else
    let h := powMod (b * b % m) (e / 2) m
    if e % 2 = 1 then h * b % m else h
termination_by e
decreasing_by exact Nat.div_lt_self (Nat.pos_of_ne_zero (by assumption)) (by omega)

/-- `SPOTIFY_DH_PRIME` (spotify_crypto.py lines 26-38), the 1024-bit MODP
prime. -/
def SPOTIFY_DH_PRIME : Nat :=
  0xFFFFFFFFFFFFFFFFC90FDAA22168C234C4C6628B80DC1CD129024E088A67CC74020BBEA63B139B22514A08798E3404DDEF9519B3CD3A431B302B0A6DF25F14374FE1356D6D51C245E485B576625E7EC6F44C42E9A637ED6B0BFF5CB6F406B7EDEE386BFB5A899FA5AE9F24117C4B1FE649286651ECE45B3DC2007CB8A163BF0598DA48361C55D39A69163FA8FD24CF5F83655D23DCA3AD961C62F356208552BB9ED529077096966D670C354E4ABC9804F1746C08CA18217C32905E462E36CE3BE39E772C180E86039B2783A2EC07A28FB5C55DF06F4C52C9DE2BCBF6955817183995497CEA956AE515D2261898FA051015728E5A8AACAA68FFFFFFFFFFFFFFFF

/-! ### SHA-1 (as used by `hashlib.sha1` / `hmac`) -/

/-- Word arithmetic modulo `2^32`. -/
def add32 (a b : Nat) : Nat := (a + b) % 4294967296

/-- 32-bit XOR (never exceeds `2^32` on reduced inputs, reduced anyway). -/
def xor32 (a b : Nat) : Nat := (a ^^^ b) % 4294967296

/-- 32-bit AND. -/
def and32 (a b : Nat) : Nat := (a &&& b) % 4294967296

/-- 32-bit OR. -/
def or32 (a b : Nat) : Nat := (a ||| b) % 4294967296

/-- 32-bit complement. -/
def not32 (a : Nat) : Nat := 4294967295 - a % 4294967296

/-- 32-bit left rotation by `n`. -/
def rotl32 (n x : Nat) : Nat :=
  ((x <<< n) % 4294967296) ||| ((x % 4294967296) >>> (32 - n))

/-- SHA-1 message padding: `0x80`, zeros to 56 mod 64, 8-byte big-endian bit
length. -/
def sha1Pad (msg : List Nat) : List Nat :=
  let l := msg.length
  let z := (64 + 55 - (l % 64)) % 64
  msg ++ [128] ++ List.replicate z 0 ++ natToBytesBE 8 (8 * l)

/-- Split a byte list into 64-byte chunks. -/
def chunk64 (l : List Nat) : List (List Nat) :=
  if h : l = [] then [] else l.take 64 :: chunk64 (l.drop 64)
termination_by l.length
decreasing_by
  simp only [List.length_drop]
  have : 0 < l.length := List.length_pos.mpr h
  omega

/-- Big-endian bytes to 32-bit words. -/
def bytesToWordsBE : List Nat → List Nat
  | a :: b :: c :: d :: rest =>
      (((a * 256 + b) * 256 + c) * 256 + d) :: bytesToWordsBE rest
  | _ => []

/-- Extend the 16 schedule words to 80. -/
def sha1Extend (w : List Nat) : Nat → List Nat
  | 0 => w
  | n + 1 =>
      let i := w.length
      let nw := rotl32 1 (xor32 (xor32 (w.getD (i - 3) 0) (w.getD (i - 8) 0))
        (xor32 (w.getD (i - 14) 0) (w.getD (i - 16) 0)))
      sha1Extend (w ++ [nw]) n

/-- The SHA-1 round function. -/
def sha1F (t b c d : Nat) : Nat :=
  if t < 20 then or32 (and32 b c) (and32 (not32 b) d)
  else if t < 40 then xor32 b (xor32 c d)
  else if t < 60 then or32 (or32 (and32 b c) (and32 b d)) (and32 c d)
  else xor32 b (xor32 c d)

/-- The SHA-1 round constants. -/
def sha1K (t : Nat) : Nat :=
  if t < 20 then 0x5A827999
  else if t < 40 then 0x6ED9EBA1
  else if t < 60 then 0x8F1BBCDC
  else 0xCA62C1D6

/-- Compress one 64-byte chunk into the running state. -/
def sha1Compress (h : Nat × Nat × Nat × Nat × Nat) (chunkBytes : List Nat) :
    Nat × Nat × Nat × Nat × Nat :=
  let w := sha1Extend (bytesToWordsBE chunkBytes) 64
  let r := (List.range 80).foldl (fun (s : Nat × Nat × Nat × Nat × Nat) t =>
      let temp := add32 (add32 (add32 (rotl32 5 s.1) (sha1F t s.2.1 s.2.2.1 s.2.2.2.1))
        (add32 s.2.2.2.2 (sha1K t))) (w.getD t 0)
      (temp, s.1, rotl32 30 s.2.1, s.2.2.1, s.2.2.2.1)) h
  (add32 h.1 r.1, add32 h.2.1 r.2.1, add32 h.2.2.1 r.2.2.1,
    add32 h.2.2.2.1 r.2.2.2.1, add32 h.2.2.2.2 r.2.2.2.2)

/-- SHA-1 of a byte string (20-byte digest). -/
def sha1 (msg : List Nat) : List Nat :=
  let h := (chunk64 (sha1Pad msg)).foldl sha1Compress
    (0x67452301, 0xEFCDAB89, 0x98BADCFE, 0x10325476, 0xC3D2E1F0)
  natToBytesBE 4 h.1 ++ natToBytesBE 4 h.2.1 ++ natToBytesBE 4 h.2.2.1 ++
    natToBytesBE 4 h.2.2.2.1 ++ natToBytesBE 4 h.2.2.2.2

/-- HMAC-SHA1, the `hmac.new(key, msg, hashlib.sha1).digest()` of
`derive_encryption_keys` (spotify_crypto.py lines 127-132). -/
def hmacSha1 (key msg : List Nat) : List Nat :=
  let k0 := if 64 < key.length then sha1 key else key
  let k := k0 ++ List.replicate (64 - k0.length) 0
  let ipadded := k.map (fun b => (b ^^^ 54) % 256)
  let opadded := k.map (fun b => (b ^^^ 92) % 256)
  sha1 (opadded ++ sha1 (ipadded ++ msg))

/-- `SpotifyCrypto.derive_encryption_keys` (spotify_crypto.py lines 115-145):
`enc_key = digest[:16]`,
`hmac_key = digest[16:32] if len ≥ 32 else digest[16:] + zero padding`. -/
def derive_encryption_keys (sharedSecret usernameUtf8 : List Nat) :
    List Nat × List Nat :=
  let hk := hmacSha1 sharedSecret usernameUtf8
  (hk.take 16,
    if 32 ≤ hk.length then (hk.drop 16).take 16
    else hk.drop 16 ++ List.replicate (32 - hk.length) 0)

/-! ### AES-128 (the `cryptography` library's AES, FIPS-197) -/

/-- Byte XOR (result reduced mod 256, the byte semantics). -/
def bxor (a b : Nat) : Nat := (a ^^^ b) % 256

/-- GF(2^8) doubling with the AES reduction polynomial `0x1b`. -/
def xtime (b : Nat) : Nat :=
  if b < 128 then (b * 2) % 256 else ((b * 2) ^^^ 27) % 256

/-- GF(2^8) multiplication (russian-peasant over 8 bits). -/
def gmulAux : Nat → Nat → Nat → Nat → Nat
  | 0, _, _, acc => acc
  | n + 1, a, b, acc =>
      gmulAux n (xtime a) (b / 2) (if b % 2 = 1 then bxor acc a else acc)

/-- GF(2^8) multiplication. -/
def gmul (a b : Nat) : Nat := gmulAux 8 a b 0

/-- GF(2^8) exponentiation. -/
def gpow (a : Nat) : Nat → Nat
  | 0 => 1
  | n + 1 => gmul a (gpow a n)

/-- 8-bit left rotation. -/
def rotl8 (n x : Nat) : Nat := ((x <<< n) % 256) ||| ((x % 256) >>> (8 - n))

/-- The AES S-box: multiplicative inverse in GF(2^8) (via `x^254`) followed by
the affine transform. -/
def sbox (x : Nat) : Nat :=
  let inv := if x % 256 = 0 then 0 else gpow (x % 256) 254
  bxor (bxor (bxor inv (rotl8 1 inv)) (bxor (rotl8 2 inv) (rotl8 3 inv)))
    (bxor (rotl8 4 inv) 99)

/-- SubWord of the key schedule. -/
def subWord (w : List Nat) : List Nat := w.map sbox

/-- RotWord of the key schedule. -/
def rotWord : List Nat → List Nat
  | [] => []
  | a :: rest => rest ++ [a]

/-- Round constants `rcon[i+1] = xtime(rcon[i])`, `rcon[1] = 1`. -/
def rconByte : Nat → Nat
  | 0 => 1
  | n + 1 => xtime (rconByte n)

/-- AES-128 key schedule: extend the four initial words by `n` words. -/
def expandWords (ws : List (List Nat)) : Nat → List (List Nat)
  | 0 => ws
  | n + 1 =>
      let i := ws.length
      let prev := ws.getD (i - 1) []
      let temp := if i % 4 = 0 then
          List.zipWith bxor (subWord (rotWord prev)) [rconByte (i / 4 - 1), 0, 0, 0]
        else prev
      expandWords (ws ++ [List.zipWith bxor (ws.getD (i - 4) []) temp]) n

/-- The 44 schedule words of AES-128. -/
def aesWords (key : List Nat) : List (List Nat) :=
  expandWords [key.take 4, (key.drop 4).take 4, (key.drop 8).take 4,
    (key.drop 12).take 4] 40

/-- Round key `r` (16 bytes). -/
def aesRoundKey (key : List Nat) (r : Nat) : List Nat :=
  (((aesWords key).drop (4 * r)).take 4).flatten

/-- SubBytes. -/
def subBytes (s : List Nat) : List Nat := s.map sbox

/-- ShiftRows on the flat column-major state. -/
def shiftRows (s : List Nat) : List Nat :=
  [s.getD 0 0, s.getD 5 0, s.getD 10 0, s.getD 15 0,
   s.getD 4 0, s.getD 9 0, s.getD 14 0, s.getD 3 0,
   s.getD 8 0, s.getD 13 0, s.getD 2 0, s.getD 7 0,
   s.getD 12 0, s.getD 1 0, s.getD 6 0, s.getD 11 0]

/-- MixColumns on one column. -/
def mixCol (c : List Nat) : List Nat :=
  let a0 := c.getD 0 0
  let a1 := c.getD 1 0
  let a2 := c.getD 2 0
  let a3 := c.getD 3 0
  [bxor (bxor (gmul 2 a0) (gmul 3 a1)) (bxor a2 a3),
   bxor (bxor a0 (gmul 2 a1)) (bxor (gmul 3 a2) a3),
   bxor (bxor a0 a1) (bxor (gmul 2 a2) (gmul 3 a3)),
   bxor (bxor (gmul 3 a0) a1) (bxor a2 (gmul 2 a3))]

/-- MixColumns. -/
def mixColumns (s : List Nat) : List Nat :=
  mixCol (s.take 4) ++ mixCol ((s.drop 4).take 4) ++
    mixCol ((s.drop 8).take 4) ++ mixCol ((s.drop 12).take 4)

/-- AddRoundKey. -/
def addRoundKey (s k : List Nat) : List Nat := List.zipWith bxor s k

/-- AES-128 block encryption. -/
def aesEncryptBlock (key block : List Nat) : List Nat :=
  let s0 := addRoundKey block (aesRoundKey key 0)
  let s9 := (List.range 9).foldl
    (fun s r => addRoundKey (mixColumns (shiftRows (subBytes s))) (aesRoundKey key (r + 1)))
    s0
  addRoundKey (shiftRows (subBytes s9)) (aesRoundKey key 10)

/-! ### CTR mode (`modes.CTR(iv)`: the 16-byte iv is the initial counter
block, incremented as a 128-bit big-endian integer) -/

/-- Counter block `i`. -/
def ctrCounterBlock (iv : List Nat) (i : Nat) : List Nat :=
  natToBytesBE 16 ((natFromBytesBE iv + i) % 340282366920938463463374607431768211456)

/-- CTR keystream of `n` blocks. -/
def ctrKeystream (key iv : List Nat) (n : Nat) : List Nat :=
  ((List.range n).map (fun i => aesEncryptBlock key (ctrCounterBlock iv i))).flatten

/-- AES-128-CTR encryption: XOR the data with the keystream. -/
def aesCtrEncrypt (key iv data : List Nat) : List Nat :=
  List.zipWith bxor data (ctrKeystream key iv ((data.length + 15) / 16))

/-- AES-128-CTR decryption (CTR decryption applies the same keystream XOR). -/
def aesCtrDecrypt (key iv data : List Nat) : List Nat :=
  List.zipWith bxor data (ctrKeystream key iv ((data.length + 15) / 16))

/-! ### Base64 (`base64.b64encode` / `b64decode`), on ASCII codes -/

/-- 6-bit group to base64 alphabet ASCII code. -/
def b64Char (g : Nat) : Nat :=
  if g < 26 then 65 + g
  else if g < 52 then 97 + (g - 26)
  else if g < 62 then 48 + (g - 52)
  else if g = 62 then 43
  else 47

/-- Base64 alphabet ASCII code back to its 6-bit group. -/
def b64CharInv (c : Nat) : Nat :=
  if 65 ≤ c ∧ c ≤ 90 then c - 65
  else if 97 ≤ c ∧ c ≤ 122 then c - 97 + 26
  else if 48 ≤ c ∧ c ≤ 57 then c - 48 + 52
  else if c = 43 then 62
  else if c = 47 then 63
  else 0

/-- `base64.b64encode` on bytes, producing ASCII codes (61 = `'='`). -/
def b64EncodeBytes : List Nat → List Nat
  | [] => []
  | [a] => [b64Char (a / 4), b64Char (a % 4 * 16), 61, 61]
  | [a, b] => [b64Char (a / 4), b64Char (a % 4 * 16 + b / 16),
      b64Char (b % 16 * 4), 61]
  | a :: b :: c :: rest =>
      b64Char (a / 4) :: b64Char (a % 4 * 16 + b / 16) ::
        b64Char (b % 16 * 4 + c / 64) :: b64Char (c % 64) :: b64EncodeBytes rest

/-- `base64.b64decode` on ASCII codes. -/
def b64DecodeBytes : List Nat → List Nat
  | c1 :: c2 :: c3 :: c4 :: rest =>
      if c3 = 61 then [b64CharInv c1 * 4 + b64CharInv c2 / 16]
      else if c4 = 61 then
        [b64CharInv c1 * 4 + b64CharInv c2 / 16,
         b64CharInv c2 % 16 * 16 + b64CharInv c3 / 4]
      else
        (b64CharInv c1 * 4 + b64CharInv c2 / 16) ::
          (b64CharInv c2 % 16 * 16 + b64CharInv c3 / 4) ::
          (b64CharInv c3 % 4 * 64 + b64CharInv c4) :: b64DecodeBytes rest
  | _ => []

/-! ### The blob functions (spotify_crypto.py lines 49-228) -/

/-- `SpotifyCrypto.compute_shared_secret` (lines 80-113): plain DH exchange;
the library serializes the shared secret as 128 big-endian bytes. -/
def compute_shared_secret (privateKeyBytes devicePublicBytes : List Nat) :
    List Nat :=
  natToBytesBE 128 (powMod (natFromBytesBE devicePublicBytes)
    (natFromBytesBE privateKeyBytes) SPOTIFY_DH_PRIME)

/-- The public value serialized by `generate_dh_keypair` (lines 49-78):
`y = g^x mod p` as 128 big-endian bytes, for the private draw `x`. -/
def dhPublicKeyBytes (privateKeyBytes : List Nat) : List Nat :=
  natToBytesBE 128 (powMod 2 (natFromBytesBE privateKeyBytes) SPOTIFY_DH_PRIME)

/-- `SpotifyCrypto.encrypt_credentials` (lines 147-182) with the random iv
made explicit: plaintext `utf8(username) ++ ":" ++ utf8(password)` (58 is
`':'`), AES-128-CTR under `encryption_key` and `iv`; returns
`(encrypted_data, iv)`. -/
def encrypt_credentials (usernameUtf8 passwordUtf8 encryptionKey iv : List Nat) :
    List Nat × List Nat :=
  (aesCtrEncrypt encryptionKey iv (usernameUtf8 ++ [58] ++ passwordUtf8), iv)

/-- `SpotifyCrypto.generate_encrypted_blob` (lines 184-228) with the three
random draws (DH private key, device public bytes, iv) made explicit
parameters: returns `(blob_base64, client_key_base64)` where
`blob = iv ++ ciphertext`. -/
def generate_encrypted_blob
    (usernameUtf8 passwordUtf8 privateKeyBytes devicePublicBytes iv : List Nat) :
    List Nat × List Nat :=
  let sharedSecret := compute_shared_secret privateKeyBytes devicePublicBytes
  let keys := derive_encryption_keys sharedSecret usernameUtf8
  let encrypted := (encrypt_credentials usernameUtf8 passwordUtf8 keys.1 iv).1
  (b64EncodeBytes (iv ++ encrypted), b64EncodeBytes (dhPublicKeyBytes privateKeyBytes))

/-! ### C6 — encrypted-blob round-trip -/

theorem natToBytesBE_length (k : Nat) : ∀ n, (natToBytesBE k n).length = k := by
  induction k with
  | zero => intro n; rfl
  | succ k ih =>
    intro n
    simp [natToBytesBE, ih]

theorem natToBytesBE_lt (k : Nat) : ∀ n, ∀ b ∈ natToBytesBE k n, b < 256 := by
  induction k with
  | zero => intro n b hb; simp [natToBytesBE] at hb
  | succ k ih =>
    intro n b hb
    simp only [natToBytesBE, List.mem_append, List.mem_singleton] at hb
    rcases hb with hb | rfl
    · exact ih _ b hb
    · omega

theorem bxor_lt (a b : Nat) : bxor a b < 256 := Nat.mod_lt _ (by omega)

theorem zipWith_bxor_lt :
    ∀ (l₁ l₂ : List Nat), ∀ x ∈ List.zipWith bxor l₁ l₂, x < 256 := by
  intro l₁
  induction l₁ with
  | nil => intro l₂ x hx; simp at hx
  | cons a t ih =>
    intro l₂ x hx
    cases l₂ with
    | nil => simp at hx
    | cons b t₂ =>
      simp only [List.zipWith_cons_cons, List.mem_cons] at hx
      rcases hx with rfl | hx
      · exact bxor_lt a b
      · exact ih t₂ x hx

theorem rotWord_length (w : List Nat) : (rotWord w).length = w.length := by
  cases w <;> simp [rotWord]

/-- All schedule words stay 4 bytes long. -/
theorem expandWords_wordLen :
    ∀ (n : Nat) (ws : List (List Nat)), 4 ≤ ws.length →
      (∀ w ∈ ws, w.length = 4) → ∀ w ∈ expandWords ws n, w.length = 4 := by
  intro n
  induction n with
  | zero => intro ws _ h w hw; exact h w hw
  | succ n ih =>
    intro ws h4 h w hw
    simp only [expandWords] at hw
    refine ih _ (by simp; omega) ?_ w hw
    intro v hv
    rcases List.mem_append.mp hv with hv | hv
    · exact h v hv
    · have hv' : v = List.zipWith bxor (ws.getD (ws.length - 4) [])
          (if ws.length % 4 = 0 then
            List.zipWith bxor (subWord (rotWord (ws.getD (ws.length - 1) [])))
              [rconByte (ws.length / 4 - 1), 0, 0, 0]
          else ws.getD (ws.length - 1) []) := by
        simpa using hv
      have hmem4 : (ws.getD (ws.length - 4) []).length = 4 := by
        have hlt : ws.length - 4 < ws.length := by omega
        rw [List.getD_eq_getElem ws [] hlt]
        exact h _ (List.getElem_mem hlt)
      have hmem1 : (ws.getD (ws.length - 1) []).length = 4 := by
        have hlt : ws.length - 1 < ws.length := by omega
        rw [List.getD_eq_getElem ws [] hlt]
        exact h _ (List.getElem_mem hlt)
      subst hv'
      split
      · simp only [List.length_zipWith, hmem4, subWord, List.length_map, rotWord_length,
          hmem1, List.length_cons, List.length_nil]
        omega
      · simp only [List.length_zipWith, hmem4, hmem1]
        omega

theorem expandWords_length :
    ∀ (n : Nat) (ws : List (List Nat)), (expandWords ws n).length = ws.length + n := by
  intro n
  induction n with
  | zero => intro ws; rfl
  | succ n ih =>
    intro ws
    simp only [expandWords]
    rw [ih]
    simp
    omega

theorem aesWords_length (key : List Nat) : (aesWords key).length = 44 := by
  unfold aesWords
  rw [expandWords_length]
  rfl

theorem aesWords_wordLen (key : List Nat) (hk : key.length = 16) :
    ∀ w ∈ aesWords key, w.length = 4 := by
  unfold aesWords
  refine expandWords_wordLen 40 _ (by simp) ?_
  intro w hw
  simp only [List.mem_cons, List.mem_singleton] at hw
  rcases hw with rfl | rfl | rfl | rfl | h
  · simp [hk]
  · simp [hk]
  · simp [hk]
  · simp [hk]
  · simp at h

theorem flatten_length_const (c : Nat) (l : List (List Nat))
    (h : ∀ x ∈ l, x.length = c) : l.flatten.length = c * l.length := by
  induction l with
  | nil => simp
  | cons a t ih =>
    simp only [List.flatten_cons, List.length_append, List.length_cons]
    rw [h a (by simp), ih (fun x hx => h x (by simp [hx]))]
    ring

theorem aesRoundKey_length (key : List Nat) (hk : key.length = 16) (r : Nat)
    (hr : r ≤ 10) : (aesRoundKey key r).length = 16 := by
  unfold aesRoundKey
  rw [flatten_length_const 4]
  · rw [List.length_take, List.length_drop, aesWords_length]
    omega
  · intro x hx
    exact aesWords_wordLen key hk x (List.mem_of_mem_drop (List.mem_of_mem_take hx))

theorem addRoundKey_lt (s k : List Nat) : ∀ x ∈ addRoundKey s k, x < 256 :=
  zipWith_bxor_lt s k

theorem aesEncryptBlock_lt (key block : List Nat) :
    ∀ x ∈ aesEncryptBlock key block, x < 256 := by
  unfold aesEncryptBlock
  exact addRoundKey_lt _ _

theorem shiftRows_length (s : List Nat) : (shiftRows s).length = 16 := by
  simp [shiftRows]

theorem mixColumns_length (s : List Nat) : (mixColumns s).length = 16 := by
  simp [mixColumns, mixCol]

theorem aesEncryptBlock_length (key block : List Nat) (hk : key.length = 16)
    (hb : block.length = 16) : (aesEncryptBlock key block).length = 16 := by
  unfold aesEncryptBlock
  have hfold : ∀ (l : List Nat) (r : Nat), r ≤ 9 →
      (addRoundKey (mixColumns (shiftRows (subBytes l))) (aesRoundKey key (r + 1))).length
        = 16 := by
    intro l r hr
    unfold addRoundKey
    rw [List.length_zipWith, mixColumns_length, aesRoundKey_length key hk (r + 1) (by omega)]
    omega
  have hs9 : ((List.range 9).foldl
      (fun s r => addRoundKey (mixColumns (shiftRows (subBytes s))) (aesRoundKey key (r + 1)))
      (addRoundKey block (aesRoundKey key 0))).length = 16 := by
    have h0 : (addRoundKey block (aesRoundKey key 0)).length = 16 := by
      unfold addRoundKey
      rw [List.length_zipWith, hb, aesRoundKey_length key hk 0 (by omega)]
      omega
    have : ∀ (rs : List Nat) (s : List Nat), s.length = 16 → (∀ r ∈ rs, r ≤ 9) →
        (rs.foldl (fun s r =>
          addRoundKey (mixColumns (shiftRows (subBytes s))) (aesRoundKey key (r + 1))) s).length
          = 16 := by
      intro rs
      induction rs with
      | nil => intro s hs _; exact hs
      | cons a t ih =>
        intro s hs hmem
        simp only [List.foldl_cons]
        exact ih _ (hfold s a (hmem a (by simp))) (fun r hr => hmem r (by simp [hr]))
    refine this _ _ h0 ?_
    intro r hr
    have := List.mem_range.mp hr
    omega
  unfold addRoundKey
  rw [List.length_zipWith, shiftRows_length, aesRoundKey_length key hk 10 (by omega)]
  omega

theorem ctrKeystream_length (key iv : List Nat) (hk : key.length = 16) (n : Nat) :
    (ctrKeystream key iv n).length = 16 * n := by
  unfold ctrKeystream
  rw [flatten_length_const 16]
  · simp
  · intro x hx
    obtain ⟨i, _, rfl⟩ := List.mem_map.mp hx
    exact aesEncryptBlock_length key _ hk (natToBytesBE_length 16 _)

theorem ctrKeystream_lt (key iv : List Nat) (n : Nat) :
    ∀ x ∈ ctrKeystream key iv n, x < 256 := by
  intro x hx
  unfold ctrKeystream at hx
  obtain ⟨blk, hblk, hxblk⟩ := List.mem_flatten.mp hx
  obtain ⟨i, _, rfl⟩ := List.mem_map.mp hblk
  exact aesEncryptBlock_lt key _ x hxblk

theorem sha1_length (msg : List Nat) : (sha1 msg).length = 20 := by
  show (natToBytesBE 4 _ ++ natToBytesBE 4 _ ++ natToBytesBE 4 _ ++ natToBytesBE 4 _ ++
    natToBytesBE 4 _).length = 20
  simp [natToBytesBE_length]

theorem hmacSha1_length (key msg : List Nat) : (hmacSha1 key msg).length = 20 := by
  show (sha1 _).length = 20
  exact sha1_length _

/-- The derived AES key `digest[:16]` is 16 bytes. -/
theorem derive_encryption_keys_keyLength (sharedSecret usernameUtf8 : List Nat) :
    (derive_encryption_keys sharedSecret usernameUtf8).1.length = 16 := by
  show ((hmacSha1 sharedSecret usernameUtf8).take 16).length = 16
  rw [List.length_take, hmacSha1_length]
  rfl

theorem b64CharInv_b64Char : ∀ g < 64, b64CharInv (b64Char g) = g := by decide

theorem b64Char_ne_61 : ∀ g < 64, b64Char g ≠ 61 := by decide

/-- Base64 decode is a left inverse of encode on byte strings. -/
theorem b64_roundtrip : ∀ bs : List Nat, (∀ b ∈ bs, b < 256) →
    b64DecodeBytes (b64EncodeBytes bs) = bs := by
  intro bs
  induction bs using b64EncodeBytes.induct with
  | case1 => intro _; rfl
  | case2 a =>
    intro hb
    have ha : a < 256 := hb a (by simp)
    simp only [b64EncodeBytes, b64DecodeBytes, if_pos rfl, if_true]
    rw [b64CharInv_b64Char (a / 4) (by omega), b64CharInv_b64Char (a % 4 * 16) (by omega)]
    simp only [List.cons.injEq]
    exact ⟨by omega, trivial⟩
  | case3 a b =>
    intro hb
    have ha : a < 256 := hb a (by simp)
    have hbb : b < 256 := hb b (by simp)
    have h3 : b64Char (b % 16 * 4) ≠ 61 := b64Char_ne_61 _ (by omega)
    simp only [b64EncodeBytes, b64DecodeBytes, if_neg h3, if_pos rfl, if_true]
    rw [b64CharInv_b64Char (a / 4) (by omega),
      b64CharInv_b64Char (a % 4 * 16 + b / 16) (by omega),
      b64CharInv_b64Char (b % 16 * 4) (by omega)]
    simp only [List.cons.injEq]
    exact ⟨by omega, by omega, trivial⟩
  | case4 a b c rest ih =>
    intro hb
    have ha : a < 256 := hb a (by simp)
    have hbb : b < 256 := hb b (by simp)
    have hc : c < 256 := hb c (by simp)
    have h3 : b64Char (b % 16 * 4 + c / 64) ≠ 61 := b64Char_ne_61 _ (by omega)
    have h4 : b64Char (c % 64) ≠ 61 := b64Char_ne_61 _ (by omega)
    simp only [b64EncodeBytes, b64DecodeBytes, if_neg h3, if_neg h4]
    rw [b64CharInv_b64Char (a / 4) (by omega),
      b64CharInv_b64Char (a % 4 * 16 + b / 16) (by omega),
      b64CharInv_b64Char (b % 16 * 4 + c / 64) (by omega),
      b64CharInv_b64Char (c % 64) (by omega)]
    rw [ih (fun x hx => hb x (by simp [hx]))]
    simp only [List.cons.injEq]
    exact ⟨by omega, by omega, by omega, trivial⟩

theorem bxor_bxor_cancel (a k : Nat) (ha : a < 256) (hk : k < 256) :
    bxor (bxor a k) k = a := by
  unfold bxor
  have hx : a ^^^ k < 256 := by
    have := Nat.xor_lt_two_pow (n := 8) (by simpa using ha) (by simpa using hk)
    simpa using this
  rw [Nat.mod_eq_of_lt hx, Nat.xor_assoc, Nat.xor_self, Nat.xor_zero,
    Nat.mod_eq_of_lt ha]

theorem zipWith_bxor_cancel :
    ∀ (d ks : List Nat), (∀ x ∈ d, x < 256) → (∀ x ∈ ks, x < 256) →
      d.length ≤ ks.length →
      List.zipWith bxor (List.zipWith bxor d ks) ks = d := by
  intro d
  induction d with
  | nil => intro ks _ _ _; simp
  | cons a t ih =>
    intro ks hd hks hlen
    cases ks with
    | nil => simp at hlen
    | cons k tk =>
      simp only [List.zipWith_cons_cons, List.cons.injEq]
      refine ⟨bxor_bxor_cancel a k (hd a (by simp)) (hks k (by simp)), ?_⟩
      exact ih tk (fun x hx => hd x (by simp [hx])) (fun x hx => hks x (by simp [hx]))
        (by simpa using hlen)

/-- C6: with the DH private key, the device public bytes and the 16-byte iv
fixed, `generate_encrypted_blob` is a pure (hence deterministic) function of
`(u, p)`; its base64-decoded blob is exactly `iv ++ ciphertext`; and
decrypting that ciphertext under AES-128-CTR with
`enc_key = first 16 bytes of HMAC-SHA1(shared_secret, utf8(u))` and the same
iv yields exactly `utf8(u) ++ ":" ++ utf8(p)`. -/
theorem encrypted_blob_roundtrip (u p priv devPub iv : List Nat)
    (hu : ∀ b ∈ u, b < 256) (hp : ∀ b ∈ p, b < 256)
    (hiv16 : iv.length = 16) (hivb : ∀ b ∈ iv, b < 256) :
    b64DecodeBytes (generate_encrypted_blob u p priv devPub iv).1 =
      iv ++ aesCtrEncrypt (derive_encryption_keys (compute_shared_secret priv devPub) u).1
        iv (u ++ [58] ++ p)
    ∧ aesCtrDecrypt (derive_encryption_keys (compute_shared_secret priv devPub) u).1 iv
        (aesCtrEncrypt (derive_encryption_keys (compute_shared_secret priv devPub) u).1
          iv (u ++ [58] ++ p)) =
      u ++ [58] ++ p := by
  have hkey : (derive_encryption_keys (compute_shared_secret priv devPub) u).1.length = 16 :=
    derive_encryption_keys_keyLength _ _
  set key := (derive_encryption_keys (compute_shared_secret priv devPub) u).1 with hkeydef
  set plain : List Nat := u ++ [58] ++ p with hplaindef
  have hplain : ∀ x ∈ plain, x < 256 := by
    intro x hx
    rw [hplaindef] at hx
    simp only [List.mem_append, List.mem_singleton] at hx
    rcases hx with (hx | rfl) | hx
    · exact hu x hx
    · omega
    · exact hp x hx
  have hkslen : (ctrKeystream key iv ((plain.length + 15) / 16)).length =
      16 * ((plain.length + 15) / 16) := ctrKeystream_length key iv hkey _
  have hksge : plain.length ≤ (ctrKeystream key iv ((plain.length + 15) / 16)).length := by
    rw [hkslen]; omega
  have hctlen : (aesCtrEncrypt key iv plain).length = plain.length := by
    unfold aesCtrEncrypt
    rw [List.length_zipWith]
    omega
  constructor
  · show b64DecodeBytes (b64EncodeBytes (iv ++ aesCtrEncrypt key iv plain)) = _
    rw [b64_roundtrip]
    intro x hx
    rcases List.mem_append.mp hx with hx | hx
    · exact hivb x hx
    · exact zipWith_bxor_lt _ _ x hx
  · unfold aesCtrDecrypt
    rw [hctlen]
    unfold aesCtrEncrypt
    exact zipWith_bxor_cancel plain _ hplain (ctrKeystream_lt key iv _) hksge

/-- Witness for C6 at a concrete input: `u = "a"`, `p = "b"` (utf8 `[97]`,
`[98]`), a fixed 16-byte iv and small DH draws satisfy the hypotheses. -/
theorem encrypted_blob_roundtrip_witness :
    ((∀ b ∈ [97], b < 256) ∧ (∀ b ∈ [98], b < 256)
      ∧ ([0, 1, 2, 3, 4, 5, 6, 7, 8, 9, 10, 11, 12, 13, 14, 15] : List Nat).length = 16
      ∧ (∀ b ∈ [0, 1, 2, 3, 4, 5, 6, 7, 8, 9, 10, 11, 12, 13, 14, 15], b < 256))
    ∧ (b64DecodeBytes (generate_encrypted_blob [97] [98] [3] [2]
          [0, 1, 2, 3, 4, 5, 6, 7, 8, 9, 10, 11, 12, 13, 14, 15]).1 =
        [0, 1, 2, 3, 4, 5, 6, 7, 8, 9, 10, 11, 12, 13, 14, 15] ++
          aesCtrEncrypt (derive_encryption_keys (compute_shared_secret [3] [2]) [97]).1
            [0, 1, 2, 3, 4, 5, 6, 7, 8, 9, 10, 11, 12, 13, 14, 15] ([97] ++ [58] ++ [98])
      ∧ aesCtrDecrypt (derive_encryption_keys (compute_shared_secret [3] [2]) [97]).1
          [0, 1, 2, 3, 4, 5, 6, 7, 8, 9, 10, 11, 12, 13, 14, 15]
          (aesCtrEncrypt (derive_encryption_keys (compute_shared_secret [3] [2]) [97]).1
            [0, 1, 2, 3, 4, 5, 6, 7, 8, 9, 10, 11, 12, 13, 14, 15] ([97] ++ [58] ++ [98])) =
        [97] ++ [58] ++ [98]) :=
  ⟨⟨by decide, by decide, by decide, by decide⟩,
   encrypted_blob_roundtrip [97] [98] [3] [2]
     [0, 1, 2, 3, 4, 5, 6, 7, 8, 9, 10, 11, 12, 13, 14, 15]
     (by decide) (by decide) (by decide) (by decide)⟩

/-! ## The orchestrator (orchestrator.py `AlarmPlaybackEngine`)

`play_alarm` is embedded as a state-passing function.  Wall-clock time is a
natural number of milliseconds in the engine state; every external call is an
oracle from the `Env` record yielding either a value or a raised exception
(its `str(e)` message) plus the call's duration.  The per-oracle call counters
both index the oracles and let theorems count calls. -/

/-- Modelled from the spec: `alarm_playback/models.py` is not in the tree.
Per-run phase metrics (spec §3 PhaseMetrics): millisecond fields, the chosen
`branch` and the `(message, phase)` error list, mutated in place by the
orchestrator. -/
structure PhaseMetrics where
  discovered_ms : Nat := 0
  getinfo_ms : Nat := 0
  adduser_ms : Nat := 0
  cloud_visible_ms : Nat := 0
  play_ms : Nat := 0
  total_duration_ms : Nat := 0
  branch : String := "unknown"
  errors : List (String × String) := []
deriving DecidableEq, Repr

/-- `PhaseMetrics.add_error(message, phase)`. -/
def PhaseMetrics.add_error (m : PhaseMetrics) (msg phase : String) : PhaseMetrics :=
  { m with errors := m.errors ++ [(msg, phase)] }

/-- Modelled from the spec: `alarm_playback/models.py` is not in the tree.
Per-device circuit breaker (spec §3): `failure_count`, `last_failure_time`,
`is_open`; threshold 3. -/
structure CircuitBreakerState where
  failure_count : Nat := 0
  last_failure_time : Nat := 0
  is_open : Bool := false
deriving DecidableEq, Repr

/-- Modelled from the spec: `record_failure()` increments and evaluates the
threshold (default 3). -/
def CircuitBreakerState.record_failure (cb : CircuitBreakerState) (now : Nat) :
    CircuitBreakerState :=
  { failure_count := cb.failure_count + 1, last_failure_time := now,
    is_open := 3 ≤ cb.failure_count + 1 }

/-- Modelled from the spec: `record_success()` resets. -/
def CircuitBreakerState.record_success (cb : CircuitBreakerState) :
    CircuitBreakerState :=
  { failure_count := 0, last_failure_time := cb.last_failure_time, is_open := false }

/-- Modelled from the spec: `should_bypass_primary()` is true iff open and the
cooldown has not elapsed. -/
def CircuitBreakerState.should_bypass_primary (cb : CircuitBreakerState)
    (now cooldownMs : Nat) : Bool :=
  cb.is_open && now < cb.last_failure_time + cooldownMs

/-- Modelled from the spec: `alarm_playback/discovery.py` is not in the tree.
A discovery result (spec §3); `is_complete := ip ≠ ∅ ∧ port > 0`.  The
`txt_records` field is not read by the orchestrator and is omitted. -/
structure DiscoveryResult where
  ip : String := ""
  port : Nat := 0
  cpath : String := ""
  instance_name : String := ""
deriving DecidableEq, Repr

/-- Modelled from the spec: `is_complete := ip≠∅ ∧ port>0`. -/
def DiscoveryResult.is_complete (d : DiscoveryResult) : Bool :=
  d.ip ≠ "" && 0 < d.port

/-- The timing knobs of `cfg.timings`, in milliseconds (defaults from spec
§4.6/§6). -/
structure Timings where
  retry404Ms : Nat := 700
  totalPollDeadlineMs : Nat := 20000
  pollFastPeriodMs : Nat := 5000
  debounceMs : Nat := 500
  failoverFireMs : Nat := 2000
deriving DecidableEq, Repr

/-- Modelled from the spec: `AlarmPlaybackConfig` as consumed by the
orchestrator — the device targets, the timing knobs and the breaker cooldown.
(`context_uri`, `shuffle` and the Spotify credentials are passed through to
the oracles and do not influence control flow.) -/
structure AlarmPlaybackConfig where
  targets : List DeviceProfile := []
  timings : Timings := {}
  breakerCooldownMs : Nat := 60000
deriving DecidableEq, Repr

/-- An external call that may raise: result or exception message, plus the
milliseconds the call took. -/
structure ApiResult (α : Type) where
  res : Except String α
  dt : Nat := 0

/-- An external call that reports failure as a boolean (spec §4.3: no
exceptions escape the zeroconf client). -/
structure TimedVal (α : Type) where
  val : α
  dt : Nat := 0

/-- One `CurrentPlayback` response: the reporting device id, when any
(`playback_info['device']['id']`). -/
structure PlaybackInfo where
  deviceId : Option String := none
deriving DecidableEq, Repr

/-- The collaborating services of one `play_alarm` run.  Repeatable calls are
indexed by their per-oracle call counter; calls made at most once per run are
plain values.  `spotify_api.py`, `zeroconf_client.py`, `discovery.py` and
`fallback.py` are not in the tree: their result shapes are modelled from the
spec (§4.2-§4.4: `Devices`, `Transfer`, `Volume`, `Play`, `CurrentPlayback`
raise on failure; `get_info`/`add_user` return booleans). -/
structure Env where
  getDevices : Nat → ApiResult (List CloudDevice)
  transfer : Nat → ApiResult Unit
  setVolume : Nat → ApiResult Unit
  play : Nat → ApiResult Unit
  currentPlayback : Nat → ApiResult (Option PlaybackInfo)
  fallbackCall : Nat → ApiResult Unit
  mdns : ApiResult DiscoveryResult
  getInfoCall : TimedVal Bool
  addUserAccessToken : TimedVal Bool
  blobSetup : ApiResult Unit
  blobCreds : ApiResult Unit
  addUserBlob : TimedVal Bool
  ipWake : ApiResult Bool
  accessToken : ApiResult String

/-- The engine state threaded through a run: the clock (ms), the profile
registry (`self._registry`), the local minimal profile used when the target is
not registered, the circuit breakers, and the per-oracle call counters. -/
structure EngineState where
  now : Nat := 0
  registry : List DeviceProfile := []
  localTarget : Option DeviceProfile := none
  breakers : List (String × CircuitBreakerState) := []
  nDevices : Nat := 0
  nTransfer : Nat := 0
  nVolume : Nat := 0
  nPlay : Nat := 0
  nCurrent : Nat := 0
  nFallback : Nat := 0
deriving DecidableEq, Repr

/-- `time.sleep` (and any other pure passage of time). -/
def EngineState.sleep (st : EngineState) (ms : Nat) : EngineState :=
  { st with now := st.now + ms }

/-- `AlarmPlaybackEngine.__init__` (orchestrator.py lines 28-48): registry and
circuit breakers from `cfg.targets`. -/
def initEngineState (cfg : AlarmPlaybackConfig) : EngineState :=
  { registry := cfg.targets,
    breakers := cfg.targets.map (fun p => (p.name, {})) }

/-! Oracle call wrappers: advance the clock, bump the counter. -/

def callGetDevices (env : Env) (st : EngineState) :
    Except String (List CloudDevice) × EngineState :=
  let c := env.getDevices st.nDevices
  (c.res, { st with now := st.now + c.dt, nDevices := st.nDevices + 1 })

def callTransfer (env : Env) (st : EngineState) : Except String Unit × EngineState :=
  let c := env.transfer st.nTransfer
  (c.res, { st with now := st.now + c.dt, nTransfer := st.nTransfer + 1 })

def callVolume (env : Env) (st : EngineState) : Except String Unit × EngineState :=
  let c := env.setVolume st.nVolume
  (c.res, { st with now := st.now + c.dt, nVolume := st.nVolume + 1 })

def callPlay (env : Env) (st : EngineState) : Except String Unit × EngineState :=
  let c := env.play st.nPlay
  (c.res, { st with now := st.now + c.dt, nPlay := st.nPlay + 1 })

def callCurrentPlayback (env : Env) (st : EngineState) :
    Except String (Option PlaybackInfo) × EngineState :=
  let c := env.currentPlayback st.nCurrent
  (c.res, { st with now := st.now + c.dt, nCurrent := st.nCurrent + 1 })

def callFallback (env : Env) (st : EngineState) : Except String Unit × EngineState :=
  let c := env.fallbackCall st.nFallback
  (c.res, { st with now := st.now + c.dt, nFallback := st.nFallback + 1 })

def callMdns (env : Env) (st : EngineState) :
    Except String DiscoveryResult × EngineState :=
  (env.mdns.res, st.sleep env.mdns.dt)

def callAccessToken (env : Env) (st : EngineState) :
    Except String String × EngineState :=
  (env.accessToken.res, st.sleep env.accessToken.dt)

def callBlobSetup (env : Env) (st : EngineState) : Except String Unit × EngineState :=
  (env.blobSetup.res, st.sleep env.blobSetup.dt)

def callBlobCreds (env : Env) (st : EngineState) : Except String Unit × EngineState :=
  (env.blobCreds.res, st.sleep env.blobCreds.dt)

def callIpWake (env : Env) (st : EngineState) : Except String Bool × EngineState :=
  (env.ipWake.res, st.sleep env.ipWake.dt)

/-! Registry and breaker access. -/

/-- Replace the first profile with the given name (the Python registry is a
name-keyed dict, so the orchestrator's mutation of the profile object is a
keyed update). -/
def updateProfile : List DeviceProfile → String → DeviceProfile → List DeviceProfile
  | [], _, _ => []
  | p :: rest, name, newP =>
      if p.name = name then newP :: rest else p :: updateProfile rest name newP

/-- The `target` variable of `play_alarm`: the registry profile when
registered, else the minimal local profile created at lines 257-263. -/
def EngineState.getTarget (st : EngineState) (name : String) : DeviceProfile :=
  match lookupProfile st.registry name with
  | some p => p
  | none => st.localTarget.getD { name := name, volume_preset := 30 }

/-- Writing through the `target` variable: the registry entry when registered
(the Python objects alias), else the local profile. -/
def EngineState.setTarget (st : EngineState) (name : String) (p : DeviceProfile) :
    EngineState :=
  match lookupProfile st.registry name with
  | some _ => { st with registry := updateProfile st.registry name p }
  | none => { st with localTarget := some p }

def lookupBreaker (bs : List (String × CircuitBreakerState)) (name : String) :
    Option CircuitBreakerState :=
  (bs.find? (fun kv => kv.1 = name)).map (·.2)

def updateBreaker : List (String × CircuitBreakerState) → String →
    CircuitBreakerState → List (String × CircuitBreakerState)
  | [], _, _ => []
  | kv :: rest, name, cb =>
      if kv.1 = name then (name, cb) :: rest else kv :: updateBreaker rest name cb

/-- `AlarmPlaybackEngine._record_failure` (lines 63-69): create the breaker if
unknown, then `record_failure`. -/
def EngineState.recordFailure (st : EngineState) (name : String) : EngineState :=
  match lookupBreaker st.breakers name with
  | some cb =>
      { st with breakers := updateBreaker st.breakers name (cb.record_failure st.now) }
  | none =>
      { st with breakers :=
          st.breakers ++ [(name, CircuitBreakerState.record_failure {} st.now)] }

/-- `AlarmPlaybackEngine._record_success` (lines 71-77). -/
def EngineState.recordSuccess (st : EngineState) (name : String) : EngineState :=
  match lookupBreaker st.breakers name with
  | some cb =>
      { st with breakers := updateBreaker st.breakers name cb.record_success }
  | none =>
      { st with breakers := st.breakers ++ [(name, CircuitBreakerState.record_success {})] }

/-- `AlarmPlaybackEngine._should_bypass_primary` (lines 56-61): create the
breaker if unknown, then consult it. -/
def EngineState.shouldBypass (st : EngineState) (name : String) (cooldownMs : Nat) :
    Bool × EngineState :=
  match lookupBreaker st.breakers name with
  | some cb => (cb.should_bypass_primary st.now cooldownMs, st)
  | none => (false, { st with breakers := st.breakers ++ [(name, {})] })

/-- The breaker failure count of a device (0 when absent). -/
def breakerCount (st : EngineState) (name : String) : Nat :=
  match lookupBreaker st.breakers name with
  | some cb => cb.failure_count
  | none => 0

/-- Phase-1 learning (orchestrator.py lines 204-210): append the cloud name to
the registered profile's `spotify_device_names`; no profile — skip. -/
def learnIfRegistered (st : EngineState) (name devName : String) : EngineState :=
  match lookupProfile st.registry name with
  | some p =>
      if devName ∈ p.spotify_device_names then st
      else
        let p' := { p with spotify_device_names := p.spotify_device_names ++ [devName] }
        { st with registry := updateProfile st.registry name p' }
  | none => st

/-- Learning through the `target` variable (orchestrator.py lines 293-295 and
495-499). -/
def learnTarget (st : EngineState) (name devName : String) : EngineState :=
  let tgt := st.getTarget name
  if devName ∈ tgt.spotify_device_names then st
  else st.setTarget name
    { tgt with spotify_device_names := tgt.spotify_device_names ++ [devName] }

/-! ### The phase functions of `play_alarm`

Raises are modelled as `Except.error (message, metricsSoFar)`: the Python
`metrics` object is mutated in place, so the `except` handler at line 566 sees
the metrics accumulated (and possibly mutated by a nested `_failover`) before
the raise. -/

/-- The message of the terminal `RuntimeError` raised by `_failover`
(orchestrator.py line 169), which the handler at line 571 recognizes by
substring. -/
def fatalMarker : String := "Alarm playback failed and no fallback succeeded"

/-- The metrics mutations `_failover` performs before raising
(orchestrator.py lines 166-167). -/
def failoverFailMetrics (m : PhaseMetrics) (reason : String) : PhaseMetrics :=
  PhaseMetrics.add_error { m with branch := "failed:" ++ reason }
    ("Fallback failed: " ++ reason) "fallback"

/-- `AlarmPlaybackEngine._failover` (orchestrator.py lines 130-169): read the
target profile (registry only), require a known IP, run the comprehensive
fallback (`airplay_fallback`); on success record branch `fallback` and the
`Primary failed` error; on any failure record branch `failed:<reason>` and
raise the terminal `RuntimeError`. -/
def failover (env : Env) (st : EngineState) (m : PhaseMetrics)
    (targetName reason : String) :
    (Except (String × PhaseMetrics) PhaseMetrics) × EngineState :=
  match lookupProfile st.registry targetName with
  | none =>
      (.error (fatalMarker ++ ": " ++ reason, failoverFailMetrics m reason), st)
  | some p =>
      if p.ip = "" then
        (.error (fatalMarker ++ ": " ++ reason, failoverFailMetrics m reason), st)
      else
        match callFallback env st with
        | (.ok _, st1) =>
            (.ok (PhaseMetrics.add_error { m with branch := "fallback" }
              ("Primary failed: " ++ reason) "fallback"), st1)
        | (.error _, st1) =>
            (.error (fatalMarker ++ ": " ++ reason, failoverFailMetrics m reason), st1)

/-- `stage_device` (playback.py lines 16-46): transfer (re-raising failures),
set the volume (failures swallowed), settle 0.2 s. -/
def stageDevice (env : Env) (st : EngineState) : Except String Unit × EngineState :=
  let t := callTransfer env st
  match t.1 with
  | .error e => (.error e, t.2)
  | .ok _ => (.ok (), ((callVolume env t.2).2).sleep 200)

/-- One playback-state check inside `verify_device_ready` (playback.py lines
124-136): does the current playback report the target device id? -/
def playbackMatches (info : Option PlaybackInfo) (deviceId : String) : Bool :=
  match info with
  | some pi => pi.deviceId = some deviceId
  | none => false

/-- The polling loop of `verify_device_ready` with its 0.5 s timeout and 0.5 s
sleeps (playback.py lines 122-139); exceptions of `get_current_playback` are
swallowed. -/
def verifyAux (env : Env) (deviceId : String) (deadline : Nat) :
    Nat → EngineState → Bool × EngineState
  | 0, st => (false, st)
  | fuel + 1, st =>
      if st.now < deadline then
        let r := callCurrentPlayback env st
        match r.1 with
        | .ok info =>
            if playbackMatches info deviceId then (true, r.2)
            else verifyAux env deviceId deadline fuel (r.2.sleep 500)
        | .error _ => verifyAux env deviceId deadline fuel (r.2.sleep 500)
      else (false, st)

/-- `verify_device_ready(api, device_id, timeout_s=0.5)` as called by the
orchestrator's confirmation loops. -/
def verifyDeviceReady (env : Env) (st : EngineState) (deviceId : String) :
    Bool × EngineState :=
  verifyAux env deviceId (st.now + 500) 3 st

/-- The T+2s confirmation loop (orchestrator.py lines 320-334 and 542-556):
poll `verify_device_ready` until the deadline, sleeping 0.2 s between
attempts; `false` means the `while…else` fires (not confirmed). -/
def confirmLoop (env : Env) (deviceId : String) (deadline : Nat) :
    Nat → EngineState → Bool × EngineState
  | 0, st => (false, st)
  | fuel + 1, st =>
      if st.now < deadline then
        let v := verifyDeviceReady env st deviceId
        if v.1 then (true, v.2)
        else confirmLoop env deviceId deadline fuel (v.2.sleep 200)
      else (false, st)

/-- The cloud-poll loop (orchestrator.py lines 478-508): poll `Devices()`
until the deadline (0.5 s fast period then 1.0 s; 1.0 s after an exception);
on a match, learn the cloud name into the target and stop. -/
def pollLoop (env : Env) (targetName : String) (deadline fastUntil : Nat) :
    Nat → EngineState → Option CloudDevice × EngineState
  | 0, st => (none, st)
  | fuel + 1, st =>
      if st.now < deadline then
        let r := callGetDevices env st
        match r.1 with
        | .ok devices =>
            match pickDevice r.2.registry devices targetName with
            | some d => (some d, learnTarget r.2 targetName d.name)
            | none =>
                pollLoop env targetName deadline fastUntil fuel
                  (r.2.sleep (if r.2.now < fastUntil then 500 else 1000))
        | .error _ =>
            pollLoop env targetName deadline fastUntil fuel (r.2.sleep 1000)
      else (none, st)

/-- Phase 1, the Web-API fast path (orchestrator.py lines 192-251): one
`Devices()` call; on an exact match, learn the name (registered profiles
only), stage and play, and return branch `webapi_direct` — with *no*
confirmation poll.  Every exception in this phase is caught at line 248 and
the run falls through to local discovery (`.inr`). -/
def phase1 (env : Env) (st : EngineState) (targetName : String) :
    (PhaseMetrics × EngineState) ⊕ (PhaseMetrics × EngineState) :=
  let m : PhaseMetrics := {}
  let webapiStart := st.now
  let r := callGetDevices env st
  match r.1 with
  | .error _ => .inr (m, r.2)
  | .ok devices =>
    match pickDevice r.2.registry devices targetName with
    | none => .inr (m, r.2)
    | some d =>
      let st2 := learnIfRegistered r.2 targetName d.name
      let m1 := { m with discovered_ms := st2.now - webapiStart }
      let sd := stageDevice env st2
      match sd.1 with
      | .error _ => .inr (m1, sd.2)
      | .ok _ =>
        let playStart := sd.2.now
        let pl := callPlay env sd.2
        match pl.1 with
        | .error _ => .inr (m1, pl.2)
        | .ok _ =>
          .inl ({ m1 with play_ms := pl.2.now - playStart, branch := "webapi_direct" }, pl.2)

/-- Phase 2, generic IP wake-up (orchestrator.py lines 270-347).  `.inl` is a
return from `play_alarm` (a confirmed `primary_ip_wakeup` success, or the
metrics of a successful `_failover` after an unconfirmed play); `.inr` falls
through to mDNS discovery — notably, the `except` at line 345 swallows *any*
exception raised inside the block, including the terminal `RuntimeError` of a
failed `_failover`, whose metrics mutations survive in `m`. -/
def ipWakePhase (env : Env) (cfg : AlarmPlaybackConfig) (start : Nat)
    (st : EngineState) (m : PhaseMetrics) (targetName : String) :
    (PhaseMetrics × EngineState) ⊕ (PhaseMetrics × EngineState) :=
  if (st.getTarget targetName).ip = "" then .inr (m, st)
  else
    let w := callIpWake env st
    match w.1 with
    | .error _ => .inr (m, w.2)
    | .ok false => .inr (m, w.2)
    | .ok true =>
      let r := callGetDevices env w.2
      match r.1 with
      | .error _ => .inr (m, r.2)
      | .ok devices =>
        match pickDevice r.2.registry devices targetName with
        | none => .inr (m, r.2)
        | some d =>
          let st3 := (learnTarget r.2 targetName d.name).sleep cfg.timings.debounceMs
          let sd := stageDevice env st3
          match sd.1 with
          | .error _ => .inr (m, sd.2)
          | .ok _ =>
            let playStart := sd.2.now
            let pl := callPlay env sd.2
            match pl.1 with
            | .error _ => .inr (m, pl.2)
            | .ok _ =>
              let m1 := { m with play_ms := pl.2.now - playStart }
              let deadline := pl.2.now + cfg.timings.failoverFireMs
              let c := confirmLoop env d.id deadline (cfg.timings.failoverFireMs + 2) pl.2
              if c.1 then
                let m2 := { m1 with branch := "primary_ip_wakeup", cloud_visible_ms := c.2.now - start }
                .inl (m2, c.2.recordSuccess targetName)
              else
                let f := failover env c.2 m1 targetName "play_not_confirmed_t2"
                match f.1 with
                | .ok m2 => .inl (m2, f.2)
                | .error em => .inr (em.2, f.2)

/-- Phases 7-8 plus confirmation (orchestrator.py lines 518-564): debounce,
stage, play, confirm within `failover_fire_after_s`; unconfirmed playback goes
to `_failover("play_not_confirmed_t2")` *without* recording a breaker
failure. -/
def primaryTail (env : Env) (cfg : AlarmPlaybackConfig) (st : EngineState)
    (m : PhaseMetrics) (targetName : String) (d : CloudDevice) :
    (Except (String × PhaseMetrics) PhaseMetrics) × EngineState :=
  let sd := stageDevice env (st.sleep cfg.timings.debounceMs)
  match sd.1 with
  | .error e => (.error (e, m), sd.2)
  | .ok _ =>
      let playStart := sd.2.now
      let pl := callPlay env sd.2
      match pl.1 with
      | .error e => (.error (e, m), pl.2)
      | .ok _ =>
          let m1 := { m with play_ms := pl.2.now - playStart }
          let deadline := pl.2.now + cfg.timings.failoverFireMs
          let c := confirmLoop env d.id deadline (cfg.timings.failoverFireMs + 2) pl.2
          if c.1 then (.ok { m1 with branch := "primary" }, c.2.recordSuccess targetName)
          else failover env c.2 m1 targetName "play_not_confirmed_t2"

/-- Phase 6 (orchestrator.py lines 447-516 after the addUser attempt): record
`adduser_ms`, the 2 s grace sleep on auth success, then the cloud poll;
`cloud_visible_ms` is set from the run start even when the poll fails. -/
def afterAuth (env : Env) (cfg : AlarmPlaybackConfig) (start adduserStart : Nat)
    (st : EngineState) (m : PhaseMetrics) (targetName : String) (authOk : Bool) :
    (Except (String × PhaseMetrics) PhaseMetrics) × EngineState :=
  let m1 := { m with adduser_ms := st.now - adduserStart }
  let st1 := if authOk then st.sleep 2000 else st
  let p := pollLoop env targetName (st1.now + cfg.timings.totalPollDeadlineMs)
    (st1.now + cfg.timings.pollFastPeriodMs) (cfg.timings.totalPollDeadlineMs + 2) st1
  let m2 := { m1 with cloud_visible_ms := p.2.now - start }
  match p.1 with
  | none => failover env p.2 m2 targetName "not_in_devices_by_deadline"
  | some d => primaryTail env cfg p.2 m2 targetName d

/-- The body of `play_alarm`'s big `try` (orchestrator.py lines 191-564).
Errors carry the metrics accumulated so far (the handler at line 566 reads
the same mutated object). -/
def mainFlow (env : Env) (cfg : AlarmPlaybackConfig) (st0 : EngineState)
    (targetName : String) :
    (Except (String × PhaseMetrics) PhaseMetrics) × EngineState :=
  let start := st0.now
  match phase1 env st0 targetName with
  | .inl (m, st) => (.ok m, st)
  | .inr (m, st) =>
    -- profile resolution (lines 253-263): materialize the minimal local
    -- profile when the target is not registered
    let stp := if (lookupProfile st.registry targetName).isSome then st
      else { st with localTarget := some { name := targetName, volume_preset := 30 } }
    -- circuit-breaker gate (lines 265-268)
    let bp := EngineState.shouldBypass stp targetName cfg.breakerCooldownMs
    if bp.1 then failover env bp.2 m targetName "circuit_breaker_open"
    else
      match ipWakePhase env cfg start bp.2 m targetName with
      | .inl (m1, st1) => (.ok m1, st1)
      | .inr (m1, st1) =>
        -- Phase 3: mDNS discovery (lines 349-390)
        let discoveryStart := st1.now
        let md := callMdns env st1
        match md.1 with
        | .error e => (.error (e, m1), md.2)
        | .ok dr =>
          let m2 := { m1 with discovered_ms := md.2.now - discoveryStart }
          -- lines 356-360: store the discovered instance name when unset
          let tgt := md.2.getTarget targetName
          let st3 := if dr.is_complete && dr.instance_name ≠ "" && tgt.instance_name = ""
            then md.2.setTarget targetName { tgt with instance_name := dr.instance_name }
            else md.2
          -- lines 362-385: fall back to the registered coordinates when
          -- discovery is incomplete
          let drFinal : Option DiscoveryResult :=
            if dr.is_complete then some dr
            else match lookupProfile st3.registry targetName with
              | some p =>
                  if p.ip ≠ "" then
                    some (DiscoveryResult.mk p.ip (if p.port = 0 then 80 else p.port)
                      (if p.cpath = "" then "/spotifyconnect/zeroconf" else p.cpath) targetName)
                  else none
              | none => none
          match drFinal with
          | none => failover env st3 m2 targetName "no_mdns"
          | some _ =>
            -- Phase 4: getInfo (lines 392-404); boolean, non-raising
            let getinfoStart := st3.now
            let st4 := st3.sleep env.getInfoCall.dt
            let m3 := { m2 with getinfo_ms := st4.now - getinfoStart }
            -- Phase 5: addUser (lines 406-469)
            let adduserStart := st4.now
            let tk := callAccessToken env st4
            match tk.1 with
            | .error e => (.error (e, m3), tk.2)
            | .ok _ =>
              let st6 := tk.2.sleep env.addUserAccessToken.dt
              if env.addUserAccessToken.val then
                afterAuth env cfg start adduserStart st6 m3 targetName true
              else
                -- blob_clientKey retry (lines 429-445): the adapters import
                -- and provider construction at lines 432-433 are outside the
                -- inner `try` and re-raise
                let bs := callBlobSetup env st6
                match bs.1 with
                | .error e => (.error (e, m3), bs.2)
                | .ok _ =>
                  let bc := callBlobCreds env bs.2
                  match bc.1 with
                  | .error _ =>
                      afterAuth env cfg start adduserStart bc.2 m3 targetName false
                  | .ok _ =>
                      afterAuth env cfg start adduserStart (bc.2.sleep env.addUserBlob.dt)
                        m3 targetName env.addUserBlob.val

/-- `AlarmPlaybackEngine.play_alarm` (orchestrator.py lines 171-582): run the
body; on an exception record a breaker failure, re-raise it when it carries
the fatal marker, otherwise run `_failover(metrics, target, str(e))`; the
`finally` stamps `total_duration_ms` on any returned metrics. -/
def playAlarm (env : Env) (cfg : AlarmPlaybackConfig) (st0 : EngineState)
    (targetName : String) : Except String PhaseMetrics × EngineState :=
  let start := st0.now
  let r := mainFlow env cfg st0 targetName
  match r.1 with
  | .ok m => (.ok { m with total_duration_ms := r.2.now - start }, r.2)
  | .error em =>
    let st1 := r.2.recordFailure targetName
    if fatalMarker.data <:+: em.1.data then (.error em.1, st1)
    else
      let f := failover env st1 em.2 targetName em.1
      match f.1 with
      | .ok m2 => (.ok { m2 with total_duration_ms := f.2.now - start }, f.2)
      | .error e2 => (.error e2.1, f.2)

/-! ### Frame predicates and basic state lemmas -/

/-- The writes `play_alarm` may perform on a registered profile: appending
previously-unseen cloud names to `spotify_device_names`, and setting
`instance_name` when it was previously unset; every other field is
untouched. -/
def profileFrame (p q : DeviceProfile) : Prop :=
  q.name = p.name ∧ q.ip = p.ip ∧ q.port = p.port ∧ q.cpath = p.cpath ∧
  q.volume_preset = p.volume_preset ∧ q.max_wake_wait_s = p.max_wake_wait_s ∧
  p.spotify_device_names <+: q.spotify_device_names ∧
  (q.instance_name = p.instance_name ∨ p.instance_name = "")

/-- Pointwise frame over the registry (no profile is added or removed during
a run). -/
def registryFrame (r r' : List DeviceProfile) : Prop :=
  List.Forall₂ profileFrame r r'

theorem profileFrame_refl (p : DeviceProfile) : profileFrame p p :=
  ⟨rfl, rfl, rfl, rfl, rfl, rfl, List.prefix_refl _, Or.inl rfl⟩

theorem profileFrame_trans {p q r : DeviceProfile}
    (h1 : profileFrame p q) (h2 : profileFrame q r) : profileFrame p r := by
  obtain ⟨a1, b1, c1, d1, e1, f1, g1, i1⟩ := h1
  obtain ⟨a2, b2, c2, d2, e2, f2, g2, i2⟩ := h2
  refine ⟨a2.trans a1, b2.trans b1, c2.trans c1, d2.trans d1, e2.trans e1,
    f2.trans f1, g1.trans g2, ?_⟩
  rcases i2 with h | h
  · rcases i1 with h' | h'
    · exact Or.inl (h.trans h')
    · exact Or.inr h'
  · rcases i1 with h' | h'
    · exact Or.inr (h' ▸ h)
    · exact Or.inr h'

theorem registryFrame_refl (r : List DeviceProfile) : registryFrame r r := by
  induction r with
  | nil => exact List.Forall₂.nil
  | cons p t ih => exact List.Forall₂.cons (profileFrame_refl p) ih

theorem registryFrame_trans {r₁ r₂ r₃ : List DeviceProfile}
    (h1 : registryFrame r₁ r₂) (h2 : registryFrame r₂ r₃) : registryFrame r₁ r₃ := by
  induction h1 generalizing r₃ with
  | nil => cases h2; exact List.Forall₂.nil
  | cons hpq ht ih =>
    cases h2 with
    | cons hqr ht2 => exact List.Forall₂.cons (profileFrame_trans hpq hqr) (ih ht2)

/-- Updating the first profile with a given name by a framing replacement
frames the registry. -/
theorem registryFrame_update (r : List DeviceProfile) (name : String)
    (p' : DeviceProfile)
    (h : ∀ p, lookupProfile r name = some p → profileFrame p p') :
    registryFrame r (updateProfile r name p') := by
  induction r with
  | nil => exact List.Forall₂.nil
  | cons p t ih =>
    unfold updateProfile
    by_cases hn : p.name = name
    · simp only [if_pos hn]
      refine List.Forall₂.cons ?_ (registryFrame_refl t)
      apply h
      unfold lookupProfile
      simp [List.find?_cons, hn]
    · simp only [if_neg hn]
      refine List.Forall₂.cons (profileFrame_refl p) ?_
      apply ih
      intro q hq
      apply h
      unfold lookupProfile at hq ⊢
      simpa [List.find?_cons, hn] using hq

/-- `setTarget` with a framing profile frames the registry. -/
theorem registryFrame_setTarget (st : EngineState) (name : String)
    (p' : DeviceProfile)
    (h : ∀ p, lookupProfile st.registry name = some p → profileFrame p p') :
    registryFrame st.registry (st.setTarget name p').registry := by
  unfold EngineState.setTarget
  cases hl : lookupProfile st.registry name with
  | none => exact registryFrame_refl _
  | some p => exact registryFrame_update _ _ _ h

/-- `learnTarget` frames the registry: it only appends a cloud name. -/
theorem registryFrame_learnTarget (st : EngineState) (name devName : String) :
    registryFrame st.registry (learnTarget st name devName).registry := by
  simp only [learnTarget]
  split
  · exact registryFrame_refl _
  · apply registryFrame_setTarget
    intro p hp
    unfold EngineState.getTarget
    rw [hp]
    exact ⟨rfl, rfl, rfl, rfl, rfl, rfl, ⟨[devName], rfl⟩, Or.inl rfl⟩

/-- `learnIfRegistered` frames the registry. -/
theorem registryFrame_learnIfRegistered (st : EngineState) (name devName : String) :
    registryFrame st.registry (learnIfRegistered st name devName).registry := by
  unfold learnIfRegistered
  cases hl : lookupProfile st.registry name with
  | none => exact registryFrame_refl _
  | some p =>
    simp only
    split
    · exact registryFrame_refl _
    · apply registryFrame_update
      intro q hq
      rw [hl] at hq
      cases hq
      exact ⟨rfl, rfl, rfl, rfl, rfl, rfl, ⟨[devName], rfl⟩, Or.inl rfl⟩

/-- Bound on the five per-phase millisecond fields of a metrics value. -/
def metricsWithin (m : PhaseMetrics) (d : Nat) : Prop :=
  m.discovered_ms ≤ d ∧ m.getinfo_ms ≤ d ∧ m.adduser_ms ≤ d ∧
    m.cloud_visible_ms ≤ d ∧ m.play_ms ≤ d

theorem metricsWithin_mono {m : PhaseMetrics} {d d' : Nat} (h : metricsWithin m d)
    (hd : d ≤ d') : metricsWithin m d' := by
  obtain ⟨h1, h2, h3, h4, h5⟩ := h
  exact ⟨h1.trans hd, h2.trans hd, h3.trans hd, h4.trans hd, h5.trans hd⟩

theorem metricsWithin_default (d : Nat) : metricsWithin {} d := by
  refine ⟨?_, ?_, ?_, ?_, ?_⟩ <;> simp

/-- Equality of the five per-phase millisecond fields. -/
def msEq (m' m : PhaseMetrics) : Prop :=
  m'.discovered_ms = m.discovered_ms ∧ m'.getinfo_ms = m.getinfo_ms ∧
    m'.adduser_ms = m.adduser_ms ∧ m'.cloud_visible_ms = m.cloud_visible_ms ∧
    m'.play_ms = m.play_ms

theorem metricsWithin_of_msEq {m' m : PhaseMetrics} {d : Nat}
    (he : msEq m' m) (h : metricsWithin m d) : metricsWithin m' d := by
  obtain ⟨e1, e2, e3, e4, e5⟩ := he
  obtain ⟨h1, h2, h3, h4, h5⟩ := h
  exact ⟨e1 ▸ h1, e2 ▸ h2, e3 ▸ h3, e4 ▸ h4, e5 ▸ h5⟩

/-- The branches a returned `PhaseMetrics` can record. -/
def allowedBranches : List String :=
  ["webapi_direct", "primary_ip_wakeup", "primary", "fallback"]

/-! Per-component state lemmas. -/

theorem failover_spec (env : Env) (st : EngineState) (m : PhaseMetrics)
    (name reason : String) :
    (failover env st m name reason).2.now ≥ st.now
    ∧ (failover env st m name reason).2.registry = st.registry
    ∧ (failover env st m name reason).2.breakers = st.breakers
    ∧ (failover env st m name reason).2.localTarget = st.localTarget
    ∧ (∀ m' st', failover env st m name reason = (.ok m', st') →
        m'.branch = "fallback" ∧ msEq m' m
          ∧ (("Primary failed: " ++ reason, "fallback") ∈ m'.errors))
    ∧ (∀ e m' st', failover env st m name reason = (.error (e, m'), st') →
        e = fatalMarker ++ ": " ++ reason ∧ msEq m' m
          ∧ m'.branch = "failed:" ++ reason) := by
  unfold failover
  cases hl : lookupProfile st.registry name with
  | none =>
    refine ⟨le_refl _, rfl, rfl, rfl, ?_, ?_⟩
    · intro m' st' h
      simp at h
    · intro e m' st' h
      simp only [Prod.mk.injEq, Except.error.injEq, Prod.mk.injEq] at h
      obtain ⟨⟨he, hm⟩, _⟩ := h
      subst he
      subst hm
      simp [msEq, failoverFailMetrics, PhaseMetrics.add_error]
  | some p =>
    by_cases hip : p.ip = ""
    · simp only [if_pos hip]
      refine ⟨le_refl _, trivial, trivial, trivial, ?_, ?_⟩
      · intro m' st' h
        simp at h
      · intro e m' st' h
        simp only [Prod.mk.injEq, Except.error.injEq, Prod.mk.injEq] at h
        obtain ⟨⟨he, hm⟩, _⟩ := h
        subst he
        subst hm
        simp [msEq, failoverFailMetrics, PhaseMetrics.add_error]
    · simp only [if_neg hip]
      cases hc : (env.fallbackCall st.nFallback).res with
      | ok v =>
        simp only [callFallback, hc]
        refine ⟨by simp [EngineState.sleep], trivial, trivial, trivial, ?_, ?_⟩
        · intro m' st' h
          simp only [Prod.mk.injEq, Except.ok.injEq] at h
          obtain ⟨hm, _⟩ := h
          subst hm
          simp [msEq, PhaseMetrics.add_error]
        · intro e m' st' h
          simp at h
      | error err =>
        simp only [callFallback, hc]
        refine ⟨by simp [EngineState.sleep], trivial, trivial, trivial, ?_, ?_⟩
        · intro m' st' h
          simp at h
        · intro e m' st' h
          simp only [Prod.mk.injEq, Except.error.injEq, Prod.mk.injEq] at h
          obtain ⟨⟨he, hm⟩, _⟩ := h
          subst he
          subst hm
          simp [msEq, failoverFailMetrics, PhaseMetrics.add_error]

theorem stageDevice_spec (env : Env) (st : EngineState) :
    st.now ≤ (stageDevice env st).2.now
    ∧ (stageDevice env st).2.registry = st.registry
    ∧ (stageDevice env st).2.breakers = st.breakers
    ∧ (stageDevice env st).2.localTarget = st.localTarget := by
  simp only [stageDevice, callTransfer, callVolume]
  cases (env.transfer st.nTransfer).res with
  | error e => refine ⟨by simp, by simp, by simp, by simp⟩
  | ok v =>
    refine ⟨?_, by simp [EngineState.sleep], by simp [EngineState.sleep],
      by simp [EngineState.sleep]⟩
    simp only [EngineState.sleep]
    omega

theorem verifyAux_spec (env : Env) (deviceId : String) (deadline : Nat) :
    ∀ (fuel : Nat) (st : EngineState),
      st.now ≤ (verifyAux env deviceId deadline fuel st).2.now
      ∧ (verifyAux env deviceId deadline fuel st).2.registry = st.registry
      ∧ (verifyAux env deviceId deadline fuel st).2.breakers = st.breakers
      ∧ (verifyAux env deviceId deadline fuel st).2.localTarget = st.localTarget := by
  intro fuel
  induction fuel with
  | zero => intro st; exact ⟨le_refl _, rfl, rfl, rfl⟩
  | succ fuel ih =>
    intro st
    unfold verifyAux
    split
    · simp only [callCurrentPlayback]
      cases (env.currentPlayback st.nCurrent).res with
      | ok info =>
        by_cases hp : playbackMatches info deviceId = true
        · simp only [if_pos hp]
          exact ⟨Nat.le_add_right _ _, by trivial, by trivial, by trivial⟩
        · simp only [if_neg hp]
          obtain ⟨h1, h2, h3, h4⟩ := ih
            (EngineState.sleep { st with now := st.now + (env.currentPlayback st.nCurrent).dt, nCurrent := st.nCurrent + 1 } 500)
          exact ⟨le_trans (le_trans (Nat.le_add_right _ _) (Nat.le_add_right _ 500)) h1,
            h2, h3, h4⟩
      | error e =>
        obtain ⟨h1, h2, h3, h4⟩ := ih
          (EngineState.sleep { st with now := st.now + (env.currentPlayback st.nCurrent).dt, nCurrent := st.nCurrent + 1 } 500)
        exact ⟨le_trans (le_trans (Nat.le_add_right _ _) (Nat.le_add_right _ 500)) h1,
          h2, h3, h4⟩
    · exact ⟨le_refl _, rfl, rfl, rfl⟩

theorem confirmLoop_spec (env : Env) (deviceId : String) (deadline : Nat) :
    ∀ (fuel : Nat) (st : EngineState),
      st.now ≤ (confirmLoop env deviceId deadline fuel st).2.now
      ∧ (confirmLoop env deviceId deadline fuel st).2.registry = st.registry
      ∧ (confirmLoop env deviceId deadline fuel st).2.breakers = st.breakers
      ∧ (confirmLoop env deviceId deadline fuel st).2.localTarget = st.localTarget := by
  intro fuel
  induction fuel with
  | zero => intro st; exact ⟨le_refl _, rfl, rfl, rfl⟩
  | succ fuel ih =>
    intro st
    unfold confirmLoop
    split
    · obtain ⟨v1, v2, v3, v4⟩ := verifyAux_spec env deviceId (st.now + 500) 3 st
      by_cases hv : (verifyDeviceReady env st deviceId).1 = true
      · simp only [if_pos hv]
        exact ⟨v1, v2, v3, v4⟩
      · simp only [if_neg hv]
        obtain ⟨h1, h2, h3, h4⟩ := ih ((verifyDeviceReady env st deviceId).2.sleep 200)
        refine ⟨le_trans (le_trans v1 (Nat.le_add_right _ 200)) h1, ?_, ?_, ?_⟩
        · exact h2.trans v2
        · exact h3.trans v3
        · exact h4.trans v4
    · exact ⟨le_refl _, rfl, rfl, rfl⟩

theorem learnTarget_misc (st : EngineState) (n dn : String) :
    (learnTarget st n dn).now = st.now ∧ (learnTarget st n dn).breakers = st.breakers := by
  simp only [learnTarget]
  split
  · exact ⟨rfl, rfl⟩
  · simp only [EngineState.setTarget]
    split <;> exact ⟨rfl, rfl⟩

theorem pollLoop_spec (env : Env) (targetName : String) (deadline fastUntil : Nat) :
    ∀ (fuel : Nat) (st : EngineState),
      st.now ≤ (pollLoop env targetName deadline fastUntil fuel st).2.now
      ∧ registryFrame st.registry
          (pollLoop env targetName deadline fastUntil fuel st).2.registry
      ∧ (pollLoop env targetName deadline fastUntil fuel st).2.breakers = st.breakers := by
  intro fuel
  induction fuel with
  | zero => intro st; exact ⟨le_refl _, registryFrame_refl _, rfl⟩
  | succ fuel ih =>
    intro st
    unfold pollLoop
    split
    · simp only [callGetDevices]
      cases (env.getDevices st.nDevices).res with
      | ok devices =>
        cases hpick : pickDevice
            ({ st with now := st.now + (env.getDevices st.nDevices).dt, nDevices := st.nDevices + 1 } : EngineState).registry
            devices targetName with
        | some d =>
          simp only [hpick]
          refine ⟨?_, ?_, ?_⟩
          · rw [(learnTarget_misc _ targetName d.name).1]
            exact Nat.le_add_right _ _
          · exact registryFrame_learnTarget { st with now := st.now + (env.getDevices st.nDevices).dt, nDevices := st.nDevices + 1 } targetName d.name
          · exact (learnTarget_misc _ targetName d.name).2
        | none =>
          simp only [hpick]
          obtain ⟨h1, h2, h3⟩ := ih (EngineState.sleep { st with now := st.now + (env.getDevices st.nDevices).dt, nDevices := st.nDevices + 1 } (if st.now + (env.getDevices st.nDevices).dt < fastUntil then 500 else 1000))
          exact ⟨le_trans (le_trans (Nat.le_add_right _ _) (Nat.le_add_right _ _)) h1, h2, h3⟩
      | error e =>
        obtain ⟨h1, h2, h3⟩ := ih (EngineState.sleep { st with now := st.now + (env.getDevices st.nDevices).dt, nDevices := st.nDevices + 1 } 1000)
        exact ⟨le_trans (le_trans (Nat.le_add_right _ _) (Nat.le_add_right _ 1000)) h1, h2, h3⟩
    · exact ⟨le_refl _, registryFrame_refl _, rfl⟩

theorem learnIfRegistered_misc (st : EngineState) (n dn : String) :
    (learnIfRegistered st n dn).now = st.now
    ∧ (learnIfRegistered st n dn).breakers = st.breakers
    ∧ (learnIfRegistered st n dn).localTarget = st.localTarget
    ∧ (learnIfRegistered st n dn).nDevices = st.nDevices
    ∧ (learnIfRegistered st n dn).nTransfer = st.nTransfer
    ∧ (learnIfRegistered st n dn).nVolume = st.nVolume
    ∧ (learnIfRegistered st n dn).nPlay = st.nPlay
    ∧ (learnIfRegistered st n dn).nCurrent = st.nCurrent
    ∧ (learnIfRegistered st n dn).nFallback = st.nFallback := by
  unfold learnIfRegistered
  cases lookupProfile st.registry n with
  | none => exact ⟨rfl, rfl, rfl, rfl, rfl, rfl, rfl, rfl, rfl⟩
  | some p =>
    simp only
    split
    · exact ⟨rfl, rfl, rfl, rfl, rfl, rfl, rfl, rfl, rfl⟩
    · exact ⟨rfl, rfl, rfl, rfl, rfl, rfl, rfl, rfl, rfl⟩

theorem recordSuccess_misc (st : EngineState) (n : String) :
    (st.recordSuccess n).now = st.now
    ∧ (st.recordSuccess n).registry = st.registry
    ∧ (st.recordSuccess n).localTarget = st.localTarget := by
  unfold EngineState.recordSuccess
  cases lookupBreaker st.breakers n with
  | none => exact ⟨rfl, rfl, rfl⟩
  | some cb => exact ⟨rfl, rfl, rfl⟩

theorem recordFailure_misc (st : EngineState) (n : String) :
    (st.recordFailure n).now = st.now
    ∧ (st.recordFailure n).registry = st.registry
    ∧ (st.recordFailure n).localTarget = st.localTarget := by
  unfold EngineState.recordFailure
  cases lookupBreaker st.breakers n with
  | none => exact ⟨rfl, rfl, rfl⟩
  | some cb => exact ⟨rfl, rfl, rfl⟩

/-- Phase-1 evolution: a fast-path return carries branch `webapi_direct`;
either way the clock only moves forward, the registry only evolves by
learning, and the metrics stay within the elapsed window. -/
theorem phase1_spec (env : Env) (st : EngineState) (name : String) :
    (∀ m st', phase1 env st name = .inl (m, st') →
        st.now ≤ st'.now ∧ registryFrame st.registry st'.registry
        ∧ m.branch = "webapi_direct" ∧ metricsWithin m (st'.now - st.now))
    ∧ (∀ m st', phase1 env st name = .inr (m, st') →
        st.now ≤ st'.now ∧ registryFrame st.registry st'.registry
        ∧ metricsWithin m (st'.now - st.now)) := by
  unfold phase1
  simp only [callGetDevices]
  cases (env.getDevices st.nDevices).res with
  | error e =>
    constructor
    · intro m st' h
      simp at h
    · intro m st' h
      simp only [Sum.inr.injEq, Prod.mk.injEq] at h
      obtain ⟨hm, hst⟩ := h
      subst hm
      subst hst
      exact ⟨Nat.le_add_right _ _, registryFrame_refl _, metricsWithin_default _⟩
  | ok devices =>
    cases hpick : pickDevice
        ({ st with now := st.now + (env.getDevices st.nDevices).dt, nDevices := st.nDevices + 1 } : EngineState).registry
        devices name with
    | none =>
      simp only [hpick]
      constructor
      · intro m st' h
        simp at h
      · intro m st' h
        simp only [Sum.inr.injEq, Prod.mk.injEq] at h
        obtain ⟨hm, hst⟩ := h
        subst hm
        subst hst
        exact ⟨Nat.le_add_right _ _, registryFrame_refl _, metricsWithin_default _⟩
    | some d =>
      simp only [hpick]
      -- names for the intermediate states
      obtain ⟨ln, lb, llt, l1, l2, l3, l4, l5, l6⟩ := learnIfRegistered_misc
        ({ st with now := st.now + (env.getDevices st.nDevices).dt, nDevices := st.nDevices + 1 }) name d.name
      have lframe : registryFrame st.registry
          (learnIfRegistered { st with now := st.now + (env.getDevices st.nDevices).dt, nDevices := st.nDevices + 1 } name d.name).registry :=
        registryFrame_learnIfRegistered
          { st with now := st.now + (env.getDevices st.nDevices).dt, nDevices := st.nDevices + 1 } name d.name
      obtain ⟨s1, s2, s3, s4⟩ := stageDevice_spec env
        (learnIfRegistered { st with now := st.now + (env.getDevices st.nDevices).dt, nDevices := st.nDevices + 1 } name d.name)
      have hnowlearn : st.now ≤ (learnIfRegistered { st with now := st.now + (env.getDevices st.nDevices).dt, nDevices := st.nDevices + 1 } name d.name).now := by
        rw [ln]
        exact Nat.le_add_right _ _
      cases hsd : (stageDevice env
          (learnIfRegistered { st with now := st.now + (env.getDevices st.nDevices).dt, nDevices := st.nDevices + 1 } name d.name)).1 with
      | error e =>
        simp only [hsd]
        constructor
        · intro m st' h
          simp at h
        · intro m st' h
          simp only [Sum.inr.injEq, Prod.mk.injEq] at h
          obtain ⟨hm, hst⟩ := h
          subst hm
          subst hst
          refine ⟨le_trans hnowlearn s1, ?_, ?_⟩
          · rw [s2]
            exact lframe
          · refine ⟨?_, by simp, by simp, by simp, by simp⟩
            show (learnIfRegistered _ name d.name).now - st.now ≤ _
            exact Nat.sub_le_sub_right s1 st.now
      | ok u =>
        obtain ⟨p1, p2⟩ : st.now ≤ (callPlay env (stageDevice env
            (learnIfRegistered { st with now := st.now + (env.getDevices st.nDevices).dt, nDevices := st.nDevices + 1 } name d.name)).2).2.now
            ∧ (callPlay env (stageDevice env
            (learnIfRegistered { st with now := st.now + (env.getDevices st.nDevices).dt, nDevices := st.nDevices + 1 } name d.name)).2).2.registry
            = (stageDevice env
            (learnIfRegistered { st with now := st.now + (env.getDevices st.nDevices).dt, nDevices := st.nDevices + 1 } name d.name)).2.registry := by
          constructor
          · simp only [callPlay]
            exact le_trans (le_trans hnowlearn s1) (Nat.le_add_right _ _)
          · simp [callPlay]
        cases hpl : (callPlay env (stageDevice env
            (learnIfRegistered { st with now := st.now + (env.getDevices st.nDevices).dt, nDevices := st.nDevices + 1 } name d.name)).2).1 with
        | error e =>
          simp only [hsd, hpl]
          constructor
          · intro m st' h
            simp at h
          · intro m st' h
            simp only [Sum.inr.injEq, Prod.mk.injEq] at h
            obtain ⟨hm, hst⟩ := h
            subst hm
            subst hst
            refine ⟨p1, ?_, ?_⟩
            · rw [p2, s2]
              exact lframe
            · refine ⟨?_, by simp, by simp, by simp, by simp⟩
              show (learnIfRegistered _ name d.name).now - st.now ≤ _
              refine Nat.sub_le_sub_right ?_ st.now
              refine le_trans s1 ?_
              simp only [callPlay]
              exact Nat.le_add_right _ _
        | ok u2 =>
          simp only [hsd, hpl]
          constructor
          · intro m st' h
            simp only [Sum.inl.injEq, Prod.mk.injEq] at h
            obtain ⟨hm, hst⟩ := h
            subst hm
            subst hst
            refine ⟨p1, ?_, rfl, ?_⟩
            · rw [p2, s2]
              exact lframe
            · refine ⟨?_, by simp, by simp, by simp, ?_⟩
              · show (learnIfRegistered _ name d.name).now - st.now ≤ _
                refine Nat.sub_le_sub_right ?_ st.now
                refine le_trans s1 ?_
                simp only [callPlay]
                exact Nat.le_add_right _ _
              · show _ - (stageDevice env _).2.now ≤ _ - st.now
                exact Nat.sub_le_sub_left (le_trans hnowlearn s1) _
          · intro m st' h
            simp at h

/-- The staged tail (debounce → stage → play → confirm): a returned metrics
value records branch `primary` or (fallback success) `fallback`; errors keep
the metrics within the elapsed window. -/
theorem primaryTail_spec (env : Env) (cfg : AlarmPlaybackConfig) (st : EngineState)
    (m : PhaseMetrics) (name : String) (d : CloudDevice) (start : Nat)
    (hstart : start ≤ st.now) (hm : metricsWithin m (st.now - start)) :
    (∀ m' st', primaryTail env cfg st m name d = (.ok m', st') →
        st.now ≤ st'.now ∧ registryFrame st.registry st'.registry
        ∧ (m'.branch = "primary" ∨ m'.branch = "fallback")
        ∧ metricsWithin m' (st'.now - start))
    ∧ (∀ e m' st', primaryTail env cfg st m name d = (.error (e, m'), st') →
        st.now ≤ st'.now ∧ registryFrame st.registry st'.registry
        ∧ metricsWithin m' (st'.now - start)) := by
  simp only [primaryTail]
  obtain ⟨s1, s2, s3, s4⟩ := stageDevice_spec env (st.sleep cfg.timings.debounceMs)
  have hsd : st.now ≤ (stageDevice env (st.sleep cfg.timings.debounceMs)).2.now :=
    le_trans (Nat.le_add_right _ _) s1
  cases hstage : (stageDevice env (st.sleep cfg.timings.debounceMs)).1 with
  | error e =>
    constructor
    · intro m' st' h
      simp at h
    · intro e' m' st' h
      simp only [Prod.mk.injEq, Except.error.injEq] at h
      obtain ⟨⟨he, hmm⟩, hst⟩ := h
      subst hmm
      subst hst
      refine ⟨hsd, ?_, metricsWithin_mono hm (Nat.sub_le_sub_right hsd start)⟩
      rw [s2]
      exact registryFrame_refl _
  | ok u =>
    have hpl : st.now ≤ (callPlay env (stageDevice env (st.sleep cfg.timings.debounceMs)).2).2.now :=
      le_trans hsd (Nat.le_add_right _ _)
    have hplr : (callPlay env (stageDevice env (st.sleep cfg.timings.debounceMs)).2).2.registry
        = st.registry := s2
    cases hplay : (callPlay env (stageDevice env (st.sleep cfg.timings.debounceMs)).2).1 with
    | error e =>
      constructor
      · intro m' st' h
        simp at h
      · intro e' m' st' h
        simp only [Prod.mk.injEq, Except.error.injEq] at h
        obtain ⟨⟨he, hmm⟩, hst⟩ := h
        subst hmm
        subst hst
        refine ⟨hpl, ?_, metricsWithin_mono hm (Nat.sub_le_sub_right hpl start)⟩
        rw [hplr]
        exact registryFrame_refl _
    | ok u2 =>
      obtain ⟨c1, c2, c3, c4⟩ := confirmLoop_spec env d.id
        ((callPlay env (stageDevice env (st.sleep cfg.timings.debounceMs)).2).2.now + cfg.timings.failoverFireMs)
        (cfg.timings.failoverFireMs + 2)
        (callPlay env (stageDevice env (st.sleep cfg.timings.debounceMs)).2).2
      have hm1 : metricsWithin
          { m with play_ms :=
              (callPlay env (stageDevice env (st.sleep cfg.timings.debounceMs)).2).2.now
                - (stageDevice env (st.sleep cfg.timings.debounceMs)).2.now }
          ((callPlay env (stageDevice env (st.sleep cfg.timings.debounceMs)).2).2.now - start) := by
        obtain ⟨w1, w2, w3, w4, w5⟩ := hm
        have hmono : st.now - start ≤
            (callPlay env (stageDevice env (st.sleep cfg.timings.debounceMs)).2).2.now - start :=
          Nat.sub_le_sub_right hpl start
        exact ⟨le_trans w1 hmono, le_trans w2 hmono, le_trans w3 hmono, le_trans w4 hmono,
          Nat.sub_le_sub_left (le_trans hstart hsd) _⟩
      by_cases hc : (confirmLoop env d.id
          ((callPlay env (stageDevice env (st.sleep cfg.timings.debounceMs)).2).2.now + cfg.timings.failoverFireMs)
          (cfg.timings.failoverFireMs + 2)
          (callPlay env (stageDevice env (st.sleep cfg.timings.debounceMs)).2).2).1 = true
      · simp only [if_pos hc]
        constructor
        · intro m' st' h
          simp only [Prod.mk.injEq, Except.ok.injEq] at h
          obtain ⟨hmm, hst⟩ := h
          subst hmm
          subst hst
          refine ⟨?_, ?_, Or.inl rfl, ?_⟩
          · rw [(recordSuccess_misc _ name).1]
            exact le_trans hpl c1
          · rw [(recordSuccess_misc _ name).2.1, c2, hplr]
            exact registryFrame_refl _
          · rw [(recordSuccess_misc _ name).1]
            exact metricsWithin_mono hm1 (Nat.sub_le_sub_right c1 start)
        · intro e' m' st' h
          simp at h
      · simp only [if_neg hc]
        obtain ⟨f1, f2, f3, f4, fok, ferr⟩ := failover_spec env
          (confirmLoop env d.id
            ((callPlay env (stageDevice env (st.sleep cfg.timings.debounceMs)).2).2.now + cfg.timings.failoverFireMs)
            (cfg.timings.failoverFireMs + 2)
            (callPlay env (stageDevice env (st.sleep cfg.timings.debounceMs)).2).2).2
          { m with play_ms :=
              (callPlay env (stageDevice env (st.sleep cfg.timings.debounceMs)).2).2.now
                - (stageDevice env (st.sleep cfg.timings.debounceMs)).2.now }
          name "play_not_confirmed_t2"
        constructor
        · intro m' st' h
          have h' := congrArg Prod.fst h
          have h'' := congrArg Prod.snd h
          simp only at h' h''
          obtain ⟨hb, hms, hmem⟩ := fok m' (failover env _ _ name "play_not_confirmed_t2").2 (by rw [← h'])
          subst h''
          refine ⟨le_trans (le_trans hpl c1) f1, ?_, Or.inr hb, ?_⟩
          · rw [f2, c2, hplr]
            exact registryFrame_refl _
          · refine metricsWithin_of_msEq hms ?_
            exact metricsWithin_mono hm1 (Nat.sub_le_sub_right (le_trans c1 f1) start)
        · intro e' m' st' h
          have h' := congrArg Prod.fst h
          have h'' := congrArg Prod.snd h
          simp only at h' h''
          obtain ⟨he, hms, hb⟩ := ferr e' m' (failover env _ _ name "play_not_confirmed_t2").2 (by rw [← h'])
          subst h''
          refine ⟨le_trans (le_trans hpl c1) f1, ?_, ?_⟩
          · rw [f2, c2, hplr]
            exact registryFrame_refl _
          · refine metricsWithin_of_msEq hms ?_
            exact metricsWithin_mono hm1 (Nat.sub_le_sub_right (le_trans c1 f1) start)

/-- The post-addUser flow (grace sleep, cloud poll, staged tail or
failover). -/
theorem afterAuth_spec (env : Env) (cfg : AlarmPlaybackConfig)
    (start adduserStart : Nat) (st : EngineState) (m : PhaseMetrics)
    (name : String) (authOk : Bool)
    (hstart : start ≤ st.now) (hadd : start ≤ adduserStart)
    (hm : metricsWithin m (st.now - start)) :
    (∀ m' st', afterAuth env cfg start adduserStart st m name authOk = (.ok m', st') →
        st.now ≤ st'.now ∧ registryFrame st.registry st'.registry
        ∧ (m'.branch = "primary" ∨ m'.branch = "fallback")
        ∧ metricsWithin m' (st'.now - start))
    ∧ (∀ e m' st', afterAuth env cfg start adduserStart st m name authOk = (.error (e, m'), st') →
        st.now ≤ st'.now ∧ registryFrame st.registry st'.registry
        ∧ metricsWithin m' (st'.now - start)) := by
  simp only [afterAuth]
  have hsleep : st.now ≤ (if authOk = true then st.sleep 2000 else st).now := by
    split
    · exact Nat.le_add_right _ _
    · exact le_refl _
  have hsleepreg : (if authOk = true then st.sleep 2000 else st).registry = st.registry := by
    split <;> rfl
  obtain ⟨q1, q2, q3⟩ := pollLoop_spec env name
    ((if authOk = true then st.sleep 2000 else st).now + cfg.timings.totalPollDeadlineMs)
    ((if authOk = true then st.sleep 2000 else st).now + cfg.timings.pollFastPeriodMs)
    (cfg.timings.totalPollDeadlineMs + 2) (if authOk = true then st.sleep 2000 else st)
  have hqnow : st.now ≤ (pollLoop env name
      ((if authOk = true then st.sleep 2000 else st).now + cfg.timings.totalPollDeadlineMs)
      ((if authOk = true then st.sleep 2000 else st).now + cfg.timings.pollFastPeriodMs)
      (cfg.timings.totalPollDeadlineMs + 2) (if authOk = true then st.sleep 2000 else st)).2.now :=
    le_trans hsleep q1
  have hqframe : registryFrame st.registry (pollLoop env name
      ((if authOk = true then st.sleep 2000 else st).now + cfg.timings.totalPollDeadlineMs)
      ((if authOk = true then st.sleep 2000 else st).now + cfg.timings.pollFastPeriodMs)
      (cfg.timings.totalPollDeadlineMs + 2) (if authOk = true then st.sleep 2000 else st)).2.registry := by
    rw [← hsleepreg]
    exact q2
  have hm2 : metricsWithin
      { m with adduser_ms := st.now - adduserStart, cloud_visible_ms := (pollLoop env name ((if authOk = true then st.sleep 2000 else st).now + cfg.timings.totalPollDeadlineMs) ((if authOk = true then st.sleep 2000 else st).now + cfg.timings.pollFastPeriodMs) (cfg.timings.totalPollDeadlineMs + 2) (if authOk = true then st.sleep 2000 else st)).2.now - start }
      ((pollLoop env name
          ((if authOk = true then st.sleep 2000 else st).now + cfg.timings.totalPollDeadlineMs)
          ((if authOk = true then st.sleep 2000 else st).now + cfg.timings.pollFastPeriodMs)
          (cfg.timings.totalPollDeadlineMs + 2) (if authOk = true then st.sleep 2000 else st)).2.now - start) := by
    obtain ⟨w1, w2, w3, w4, w5⟩ := hm
    have hmono : st.now - start ≤ _ - start := Nat.sub_le_sub_right hqnow start
    refine ⟨le_trans w1 hmono, le_trans w2 hmono, ?_, le_refl _, le_trans w5 hmono⟩
    show st.now - adduserStart ≤ _
    exact le_trans (Nat.sub_le_sub_left hadd st.now) hmono
  cases hp : (pollLoop env name
      ((if authOk = true then st.sleep 2000 else st).now + cfg.timings.totalPollDeadlineMs)
      ((if authOk = true then st.sleep 2000 else st).now + cfg.timings.pollFastPeriodMs)
      (cfg.timings.totalPollDeadlineMs + 2) (if authOk = true then st.sleep 2000 else st)).1 with
  | none =>
    obtain ⟨f1, f2, f3, f4, fok, ferr⟩ := failover_spec env
      (pollLoop env name
        ((if authOk = true then st.sleep 2000 else st).now + cfg.timings.totalPollDeadlineMs)
        ((if authOk = true then st.sleep 2000 else st).now + cfg.timings.pollFastPeriodMs)
        (cfg.timings.totalPollDeadlineMs + 2) (if authOk = true then st.sleep 2000 else st)).2
      { m with adduser_ms := st.now - adduserStart, cloud_visible_ms := (pollLoop env name ((if authOk = true then st.sleep 2000 else st).now + cfg.timings.totalPollDeadlineMs) ((if authOk = true then st.sleep 2000 else st).now + cfg.timings.pollFastPeriodMs) (cfg.timings.totalPollDeadlineMs + 2) (if authOk = true then st.sleep 2000 else st)).2.now - start }
      name "not_in_devices_by_deadline"
    constructor
    · intro m' st' h
      have h' := congrArg Prod.fst h
      have h'' := congrArg Prod.snd h
      simp only at h' h''
      obtain ⟨hb, hms, hmem⟩ := fok m' _ (by rw [← h'])
      subst h''
      refine ⟨le_trans hqnow f1, ?_, Or.inr hb, ?_⟩
      · rw [f2]
        exact hqframe
      · exact metricsWithin_of_msEq hms (metricsWithin_mono hm2 (Nat.sub_le_sub_right f1 start))
    · intro e m' st' h
      have h' := congrArg Prod.fst h
      have h'' := congrArg Prod.snd h
      simp only at h' h''
      obtain ⟨he, hms, hb⟩ := ferr e m' _ (by rw [← h'])
      subst h''
      refine ⟨le_trans hqnow f1, ?_, ?_⟩
      · rw [f2]
        exact hqframe
      · exact metricsWithin_of_msEq hms (metricsWithin_mono hm2 (Nat.sub_le_sub_right f1 start))
  | some d =>
    obtain ⟨tok, terr⟩ := primaryTail_spec env cfg
      (pollLoop env name
        ((if authOk = true then st.sleep 2000 else st).now + cfg.timings.totalPollDeadlineMs)
        ((if authOk = true then st.sleep 2000 else st).now + cfg.timings.pollFastPeriodMs)
        (cfg.timings.totalPollDeadlineMs + 2) (if authOk = true then st.sleep 2000 else st)).2
      { m with adduser_ms := st.now - adduserStart, cloud_visible_ms := (pollLoop env name ((if authOk = true then st.sleep 2000 else st).now + cfg.timings.totalPollDeadlineMs) ((if authOk = true then st.sleep 2000 else st).now + cfg.timings.pollFastPeriodMs) (cfg.timings.totalPollDeadlineMs + 2) (if authOk = true then st.sleep 2000 else st)).2.now - start }
      name d start (le_trans hstart hqnow) hm2
    constructor
    · intro m' st' h
      obtain ⟨t1, t2, t3, t4⟩ := tok m' st' h
      exact ⟨le_trans hqnow t1, registryFrame_trans hqframe t2, t3, t4⟩
    · intro e m' st' h
      obtain ⟨t1, t2, t3⟩ := terr e m' st' h
      exact ⟨le_trans hqnow t1, registryFrame_trans hqframe t2, t3⟩

/-- The IP wake-up phase: an `.inl` return is a confirmed `primary_ip_wakeup`
success or a successful fallback; `.inr` falls through with evolved state. -/
theorem ipWakePhase_spec (env : Env) (cfg : AlarmPlaybackConfig) (start : Nat)
    (st : EngineState) (m : PhaseMetrics) (name : String)
    (hstart : start ≤ st.now) (hm : metricsWithin m (st.now - start)) :
    (∀ m' st', ipWakePhase env cfg start st m name = .inl (m', st') →
        st.now ≤ st'.now ∧ registryFrame st.registry st'.registry
        ∧ (m'.branch = "primary_ip_wakeup" ∨ m'.branch = "fallback")
        ∧ metricsWithin m' (st'.now - start))
    ∧ (∀ m' st', ipWakePhase env cfg start st m name = .inr (m', st') →
        st.now ≤ st'.now ∧ registryFrame st.registry st'.registry
        ∧ metricsWithin m' (st'.now - start)) := by
  have hinr : ∀ (st₂ : EngineState), st.now ≤ st₂.now →
      registryFrame st.registry st₂.registry →
      (∀ m' st', (Sum.inr (m, st₂) : (PhaseMetrics × EngineState) ⊕ (PhaseMetrics × EngineState)) = .inr (m', st') →
        st.now ≤ st'.now ∧ registryFrame st.registry st'.registry
        ∧ metricsWithin m' (st'.now - start)) := by
    intro st₂ hn hf m' st' h
    simp only [Sum.inr.injEq, Prod.mk.injEq] at h
    obtain ⟨hm1, hst⟩ := h
    subst hm1
    subst hst
    exact ⟨hn, hf, metricsWithin_mono hm (Nat.sub_le_sub_right hn start)⟩
  simp only [ipWakePhase]
  by_cases hip : (st.getTarget name).ip = ""
  · simp only [if_pos hip]
    exact ⟨fun m' st' h => by simp at h, hinr st (le_refl _) (registryFrame_refl _)⟩
  · simp only [if_neg hip, callIpWake]
    cases hw : env.ipWake.res with
    | error e =>
      exact ⟨fun m' st' h => by simp at h,
        hinr _ (Nat.le_add_right _ _) (registryFrame_refl _)⟩
    | ok b =>
      cases b with
      | false =>
        exact ⟨fun m' st' h => by simp at h,
          hinr _ (Nat.le_add_right _ _) (registryFrame_refl _)⟩
      | true =>
        simp only [callGetDevices]
        cases hr : (env.getDevices (EngineState.sleep st env.ipWake.dt).nDevices).res with
        | error e =>
          exact ⟨fun m' st' h => by simp at h,
            hinr _ (le_trans (Nat.le_add_right _ _) (Nat.le_add_right _ _))
              (registryFrame_refl _)⟩
        | ok devices =>
          cases hpick : pickDevice
              ({ EngineState.sleep st env.ipWake.dt with
                now := (EngineState.sleep st env.ipWake.dt).now + (env.getDevices (EngineState.sleep st env.ipWake.dt).nDevices).dt,
                nDevices := (EngineState.sleep st env.ipWake.dt).nDevices + 1 } : EngineState).registry
              devices name with
          | none =>
            simp only [hpick]
            exact ⟨fun m' st' h => by simp at h,
              hinr _ (le_trans (Nat.le_add_right _ _) (Nat.le_add_right _ _))
                (registryFrame_refl _)⟩
          | some d =>
            simp only [hpick]
            -- the state after learning and the debounce sleep
            set stg := { EngineState.sleep st env.ipWake.dt with
              now := (EngineState.sleep st env.ipWake.dt).now + (env.getDevices (EngineState.sleep st env.ipWake.dt).nDevices).dt,
              nDevices := (EngineState.sleep st env.ipWake.dt).nDevices + 1 } with hstg
            set st3 := (learnTarget stg name d.name).sleep cfg.timings.debounceMs with hst3
            have hst3now : st.now ≤ st3.now := by
              rw [hst3]
              have := (learnTarget_misc stg name d.name).1
              show st.now ≤ (learnTarget stg name d.name).now + _
              rw [this]
              rw [hstg]
              simp only [EngineState.sleep]
              omega
            have hst3frame : registryFrame st.registry st3.registry := by
              rw [hst3]
              show registryFrame st.registry (learnTarget stg name d.name).registry
              exact registryFrame_learnTarget stg name d.name
            obtain ⟨s1, s2, s3, s4⟩ := stageDevice_spec env st3
            cases hsd : (stageDevice env st3).1 with
            | error e =>
              refine ⟨fun m' st' h => by simp at h, hinr _ (le_trans hst3now s1) ?_⟩
              rw [s2]
              exact hst3frame
            | ok u =>
              have hplnow : st3.now ≤ (callPlay env (stageDevice env st3).2).2.now :=
                le_trans s1 (Nat.le_add_right _ _)
              have hplreg : (callPlay env (stageDevice env st3).2).2.registry = st3.registry := s2
              cases hpl : (callPlay env (stageDevice env st3).2).1 with
              | error e =>
                refine ⟨fun m' st' h => by simp at h,
                  hinr _ (le_trans hst3now hplnow) ?_⟩
                rw [hplreg]
                exact hst3frame
              | ok u2 =>
                obtain ⟨c1, c2, c3, c4⟩ := confirmLoop_spec env d.id
                  ((callPlay env (stageDevice env st3).2).2.now + cfg.timings.failoverFireMs)
                  (cfg.timings.failoverFireMs + 2) (callPlay env (stageDevice env st3).2).2
                have hm1 : metricsWithin
                    { m with play_ms := (callPlay env (stageDevice env st3).2).2.now - (stageDevice env st3).2.now }
                    ((callPlay env (stageDevice env st3).2).2.now - start) := by
                  obtain ⟨w1, w2, w3, w4, w5⟩ := hm
                  have hmono : st.now - start ≤ (callPlay env (stageDevice env st3).2).2.now - start :=
                    Nat.sub_le_sub_right (le_trans hst3now hplnow) start
                  exact ⟨le_trans w1 hmono, le_trans w2 hmono, le_trans w3 hmono,
                    le_trans w4 hmono,
                    Nat.sub_le_sub_left (le_trans hstart (le_trans hst3now s1)) _⟩
                by_cases hc : (confirmLoop env d.id
                    ((callPlay env (stageDevice env st3).2).2.now + cfg.timings.failoverFireMs)
                    (cfg.timings.failoverFireMs + 2) (callPlay env (stageDevice env st3).2).2).1 = true
                · simp only [if_pos hc]
                  constructor
                  · intro m' st' h
                    simp only [Sum.inl.injEq, Prod.mk.injEq] at h
                    obtain ⟨hm1', hst⟩ := h
                    subst hm1'
                    subst hst
                    refine ⟨?_, ?_, Or.inl rfl, ?_⟩
                    · rw [(recordSuccess_misc _ name).1]
                      exact le_trans hst3now (le_trans hplnow c1)
                    · rw [(recordSuccess_misc _ name).2.1, c2, hplreg]
                      exact hst3frame
                    · rw [(recordSuccess_misc _ name).1]
                      obtain ⟨w1, w2, w3, w4, w5⟩ := hm1
                      have hmono : (callPlay env (stageDevice env st3).2).2.now - start ≤
                          (confirmLoop env d.id
                            ((callPlay env (stageDevice env st3).2).2.now + cfg.timings.failoverFireMs)
                            (cfg.timings.failoverFireMs + 2) (callPlay env (stageDevice env st3).2).2).2.now - start :=
                        Nat.sub_le_sub_right c1 start
                      exact ⟨le_trans w1 hmono, le_trans w2 hmono, le_trans w3 hmono,
                        le_refl _, le_trans w5 hmono⟩
                  · intro m' st' h
                    simp at h
                · simp only [if_neg hc]
                  obtain ⟨f1, f2, f3, f4, fok, ferr⟩ := failover_spec env
                    (confirmLoop env d.id
                      ((callPlay env (stageDevice env st3).2).2.now + cfg.timings.failoverFireMs)
                      (cfg.timings.failoverFireMs + 2) (callPlay env (stageDevice env st3).2).2).2
                    { m with play_ms := (callPlay env (stageDevice env st3).2).2.now - (stageDevice env st3).2.now }
                    name "play_not_confirmed_t2"
                  have hwithin : metricsWithin
                      { m with play_ms := (callPlay env (stageDevice env st3).2).2.now - (stageDevice env st3).2.now }
                      ((failover env (confirmLoop env d.id
                          ((callPlay env (stageDevice env st3).2).2.now + cfg.timings.failoverFireMs)
                          (cfg.timings.failoverFireMs + 2) (callPlay env (stageDevice env st3).2).2).2
                        { m with play_ms := (callPlay env (stageDevice env st3).2).2.now - (stageDevice env st3).2.now }
                        name "play_not_confirmed_t2").2.now - start) :=
                    metricsWithin_mono hm1 (Nat.sub_le_sub_right (le_trans c1 f1) start)
                  have hfnow : st.now ≤ (failover env (confirmLoop env d.id
                      ((callPlay env (stageDevice env st3).2).2.now + cfg.timings.failoverFireMs)
                      (cfg.timings.failoverFireMs + 2) (callPlay env (stageDevice env st3).2).2).2
                      { m with play_ms := (callPlay env (stageDevice env st3).2).2.now - (stageDevice env st3).2.now }
                      name "play_not_confirmed_t2").2.now :=
                    le_trans hst3now (le_trans hplnow (le_trans c1 f1))
                  have hfframe : registryFrame st.registry (failover env (confirmLoop env d.id
                      ((callPlay env (stageDevice env st3).2).2.now + cfg.timings.failoverFireMs)
                      (cfg.timings.failoverFireMs + 2) (callPlay env (stageDevice env st3).2).2).2
                      { m with play_ms := (callPlay env (stageDevice env st3).2).2.now - (stageDevice env st3).2.now }
                      name "play_not_confirmed_t2").2.registry := by
                    rw [f2, c2, hplreg]
                    exact hst3frame
                  cases hf : (failover env (confirmLoop env d.id
                      ((callPlay env (stageDevice env st3).2).2.now + cfg.timings.failoverFireMs)
                      (cfg.timings.failoverFireMs + 2) (callPlay env (stageDevice env st3).2).2).2
                      { m with play_ms := (callPlay env (stageDevice env st3).2).2.now - (stageDevice env st3).2.now }
                      name "play_not_confirmed_t2").1 with
                  | ok m2 =>
                    obtain ⟨hb, hms, hmem⟩ := fok m2 _ (by rw [← hf])
                    constructor
                    · intro m' st' h
                      simp only [Sum.inl.injEq, Prod.mk.injEq] at h
                      obtain ⟨hm1', hst⟩ := h
                      subst hm1'
                      subst hst
                      exact ⟨hfnow, hfframe, Or.inr hb, metricsWithin_of_msEq hms hwithin⟩
                    · intro m' st' h
                      simp at h
                  | error em =>
                    obtain ⟨he, hms, hb⟩ := ferr em.1 em.2 _ (by rw [← hf])
                    constructor
                    · intro m' st' h
                      simp at h
                    · intro m' st' h
                      simp only [Sum.inr.injEq, Prod.mk.injEq] at h
                      obtain ⟨hm1', hst⟩ := h
                      subst hm1'
                      subst hst
                      exact ⟨hfnow, hfframe, metricsWithin_of_msEq hms hwithin⟩

theorem shouldBypass_misc (st : EngineState) (n : String) (c : Nat) :
    (st.shouldBypass n c).2.now = st.now
    ∧ (st.shouldBypass n c).2.registry = st.registry
    ∧ (st.shouldBypass n c).2.localTarget = st.localTarget := by
  unfold EngineState.shouldBypass
  cases lookupBreaker st.breakers n <;> exact ⟨rfl, rfl, rfl⟩

theorem setTarget_misc (st : EngineState) (n : String) (p : DeviceProfile) :
    (st.setTarget n p).now = st.now ∧ (st.setTarget n p).breakers = st.breakers := by
  unfold EngineState.setTarget
  cases lookupProfile st.registry n <;> exact ⟨rfl, rfl⟩

/-- Writing the discovered instance name into a previously-unset profile
frames the registry. -/
theorem registryFrame_instanceWrite (st : EngineState) (name : String)
    (inst : String) (hguard : (st.getTarget name).instance_name = "") :
    registryFrame st.registry
      (st.setTarget name { st.getTarget name with instance_name := inst }).registry := by
  apply registryFrame_setTarget
  intro p hp
  unfold EngineState.getTarget at hguard ⊢
  rw [hp] at hguard ⊢
  exact ⟨rfl, rfl, rfl, rfl, rfl, rfl, List.prefix_refl _, Or.inr hguard⟩

/-- The body of `play_alarm`'s `try`: a returned metrics records one of the
four outcome branches; the clock only advances, the registry only evolves by
the allowed writes, and the metrics (also those carried by a raise) stay
within the elapsed window. -/
theorem mainFlow_spec (env : Env) (cfg : AlarmPlaybackConfig) (st₀ : EngineState)
    (name : String) :
    (∀ m st', mainFlow env cfg st₀ name = (.ok m, st') →
        st₀.now ≤ st'.now ∧ registryFrame st₀.registry st'.registry
        ∧ m.branch ∈ allowedBranches ∧ metricsWithin m (st'.now - st₀.now))
    ∧ (∀ e m st', mainFlow env cfg st₀ name = (.error (e, m), st') →
        st₀.now ≤ st'.now ∧ registryFrame st₀.registry st'.registry
        ∧ metricsWithin m (st'.now - st₀.now)) := by
  obtain ⟨hpl, hpr⟩ := phase1_spec env st₀ name
  simp only [mainFlow]
  rcases hph : phase1 env st₀ name with ⟨pm, pst⟩ | ⟨pm, pst⟩
  · obtain ⟨h1, h2, h3, h4⟩ := hpl pm pst hph
    constructor
    · intro m st' h
      simp only [Prod.mk.injEq, Except.ok.injEq] at h
      obtain ⟨hm, hst⟩ := h
      subst hm
      subst hst
      exact ⟨h1, h2, by simp [h3, allowedBranches], h4⟩
    · intro e m st' h
      simp at h
  · obtain ⟨h1, h2, h4⟩ := hpr pm pst hph
    dsimp only
    generalize hstp2 : ((if (lookupProfile pst.registry name).isSome then pst
      else { pst with localTarget := some { name := name, volume_preset := 30 } }) : EngineState) = stp
    have hstpnow : stp.now = pst.now := by
      rw [← hstp2]
      split <;> rfl
    have hstpreg : stp.registry = pst.registry := by
      rw [← hstp2]
      split <;> rfl
    obtain ⟨hb1, hb2, hb3⟩ := shouldBypass_misc stp name cfg.breakerCooldownMs
    set stb := (EngineState.shouldBypass stp name cfg.breakerCooldownMs).2 with hstb
    have hbnow : stb.now = pst.now := hb1.trans hstpnow
    have hbreg : stb.registry = pst.registry := hb2.trans hstpreg
    have hb0 : st₀.now ≤ stb.now := by rw [hbnow]; exact h1
    have hbframe : registryFrame st₀.registry stb.registry := by rw [hbreg]; exact h2
    have hbm : metricsWithin pm (stb.now - st₀.now) := by rw [hbnow]; exact h4
    split
    · -- circuit breaker open: straight to failover
      obtain ⟨f1, f2, f3, f4, fok, ferr⟩ := failover_spec env stb pm name "circuit_breaker_open"
      constructor
      · intro m st' h
        obtain ⟨hbr, hms, hmem⟩ := fok m st' h
        have hsnd : (failover env stb pm name "circuit_breaker_open").2 = st' :=
          congrArg Prod.snd h
        subst hsnd
        refine ⟨le_trans hb0 f1, ?_, by simp [hbr, allowedBranches], ?_⟩
        · rw [f2]
          exact hbframe
        · exact metricsWithin_of_msEq hms (metricsWithin_mono hbm (Nat.sub_le_sub_right f1 _))
      · intro e m st' h
        obtain ⟨he, hms, hbr⟩ := ferr e m st' h
        have hsnd : (failover env stb pm name "circuit_breaker_open").2 = st' :=
          congrArg Prod.snd h
        subst hsnd
        refine ⟨le_trans hb0 f1, ?_, ?_⟩
        · rw [f2]
          exact hbframe
        · exact metricsWithin_of_msEq hms (metricsWithin_mono hbm (Nat.sub_le_sub_right f1 _))
    · -- primary path continues with the ip-wake phase
      obtain ⟨hwl, hwr⟩ := ipWakePhase_spec env cfg st₀.now stb pm name hb0 hbm
      rcases hiw : ipWakePhase env cfg st₀.now stb pm name with ⟨qm, qs⟩ | ⟨qm, qs⟩
      · obtain ⟨w1, w2, w3, w4⟩ := hwl qm qs hiw
        constructor
        · intro m st' h
          simp only [Prod.mk.injEq, Except.ok.injEq] at h
          obtain ⟨hm, hst⟩ := h
          subst hm
          subst hst
          refine ⟨le_trans hb0 w1, registryFrame_trans hbframe w2, ?_, w4⟩
          rcases w3 with hbr | hbr <;> simp [hbr, allowedBranches]
        · intro e m st' h
          simp at h
      · obtain ⟨w1, w2, w4⟩ := hwr qm qs hiw
        have hq0 : st₀.now ≤ qs.now := le_trans hb0 w1
        have hqframe : registryFrame st₀.registry qs.registry :=
          registryFrame_trans hbframe w2
        dsimp only
        simp only [callMdns]
        set stm := EngineState.sleep qs env.mdns.dt with hstm
        have hmnow : stm.now = qs.now + env.mdns.dt := rfl
        have hqm : qs.now ≤ stm.now := by rw [hmnow]; exact Nat.le_add_right _ _
        have hm0 : st₀.now ≤ stm.now := le_trans hq0 hqm
        have hmframe : registryFrame st₀.registry stm.registry := hqframe
        cases hmd : env.mdns.res with
        | error e =>
          constructor
          · intro m st' h
            simp at h
          · intro e' m st' h
            simp only [Prod.mk.injEq, Except.error.injEq, Prod.mk.injEq] at h
            obtain ⟨⟨he, hm⟩, hst⟩ := h
            subst hm
            subst hst
            exact ⟨hm0, hmframe,
              metricsWithin_mono w4 (Nat.sub_le_sub_right hqm _)⟩
        | ok dr =>
          dsimp only
          have hmm : metricsWithin { qm with discovered_ms := stm.now - qs.now }
              (stm.now - st₀.now) := by
            obtain ⟨v1, v2, v3, v4, v5⟩ := w4
            have hmono : qs.now - st₀.now ≤ stm.now - st₀.now :=
              Nat.sub_le_sub_right hqm _
            exact ⟨Nat.sub_le_sub_left hq0 _, le_trans v2 hmono, le_trans v3 hmono,
              le_trans v4 hmono, le_trans v5 hmono⟩
          set st3 := (if dr.is_complete && dr.instance_name ≠ "" && (stm.getTarget name).instance_name = ""
            then stm.setTarget name { stm.getTarget name with instance_name := dr.instance_name }
            else stm : EngineState) with hst3
          have h3now : st3.now = stm.now := by
            rw [hst3]
            split
            · exact (setTarget_misc stm name _).1
            · rfl
          have h3frame : registryFrame st₀.registry st3.registry := by
            rw [hst3]
            split
            · rename_i hg
              simp only [Bool.and_eq_true, decide_eq_true_eq] at hg
              exact registryFrame_trans hmframe
                (registryFrame_instanceWrite stm name dr.instance_name hg.2)
            · exact hmframe
          have h30 : st₀.now ≤ st3.now := by rw [h3now]; exact hm0
          have h3m : metricsWithin { qm with discovered_ms := stm.now - qs.now }
              (st3.now - st₀.now) := by rw [h3now]; exact hmm
          generalize hdrf : (if dr.is_complete then some dr
            else match lookupProfile st3.registry name with
              | some p =>
                  if p.ip ≠ "" then
                    some (DiscoveryResult.mk p.ip (if p.port = 0 then 80 else p.port)
                      (if p.cpath = "" then "/spotifyconnect/zeroconf" else p.cpath) name)
                  else none
              | none => none) = drF
          cases drF with
          | none =>
            -- no usable coordinates: failover "no_mdns"
            obtain ⟨f1, f2, f3, f4, fok, ferr⟩ := failover_spec env st3
              { qm with discovered_ms := stm.now - qs.now } name "no_mdns"
            constructor
            · intro m st' h
              obtain ⟨hbr, hms, hmem⟩ := fok m st' h
              have hsnd : (failover env st3 { qm with discovered_ms := stm.now - qs.now }
                  name "no_mdns").2 = st' := congrArg Prod.snd h
              subst hsnd
              refine ⟨le_trans h30 f1, ?_, by simp [hbr, allowedBranches], ?_⟩
              · rw [f2]
                exact h3frame
              · exact metricsWithin_of_msEq hms
                  (metricsWithin_mono h3m (Nat.sub_le_sub_right f1 _))
            · intro e m st' h
              obtain ⟨he, hms, hbr⟩ := ferr e m st' h
              have hsnd : (failover env st3 { qm with discovered_ms := stm.now - qs.now }
                  name "no_mdns").2 = st' := congrArg Prod.snd h
              subst hsnd
              refine ⟨le_trans h30 f1, ?_, ?_⟩
              · rw [f2]
                exact h3frame
              · exact metricsWithin_of_msEq hms
                  (metricsWithin_mono h3m (Nat.sub_le_sub_right f1 _))
          | some dres =>
            -- getInfo, then the addUser ladder
            dsimp only
            set st4 := EngineState.sleep st3 env.getInfoCall.dt with hst4
            have h4now : st4.now = st3.now + env.getInfoCall.dt := rfl
            have h4le : st3.now ≤ st4.now := by rw [h4now]; exact Nat.le_add_right _ _
            have h40 : st₀.now ≤ st4.now := le_trans h30 h4le
            have h4m : metricsWithin { qm with discovered_ms := stm.now - qs.now, getinfo_ms := st4.now - st3.now }
                (st4.now - st₀.now) := by
              obtain ⟨v1, v2, v3, v4, v5⟩ := h3m
              have hmono : st3.now - st₀.now ≤ st4.now - st₀.now :=
                Nat.sub_le_sub_right h4le _
              exact ⟨le_trans v1 hmono, Nat.sub_le_sub_left h30 _, le_trans v3 hmono,
                le_trans v4 hmono, le_trans v5 hmono⟩
            simp only [callAccessToken]
            cases htk : env.accessToken.res with
            | error e =>
              constructor
              · intro m st' h
                simp at h
              · intro e' m st' h
                simp only [Prod.mk.injEq, Except.error.injEq, Prod.mk.injEq] at h
                obtain ⟨⟨he, hm⟩, hst⟩ := h
                subst hm
                subst hst
                exact ⟨le_trans h40 (Nat.le_add_right _ _), h3frame,
                  metricsWithin_mono h4m (Nat.sub_le_sub_right (Nat.le_add_right _ _) _)⟩
            | ok tok =>
              dsimp only
              have hAA : ∀ (stX : EngineState) (b : Bool),
                  st₀.now ≤ stX.now →
                  registryFrame st₀.registry stX.registry →
                  metricsWithin { qm with discovered_ms := stm.now - qs.now, getinfo_ms := st4.now - st3.now } (stX.now - st₀.now) →
                  (∀ m st', afterAuth env cfg st₀.now st4.now stX
                      { qm with discovered_ms := stm.now - qs.now, getinfo_ms := st4.now - st3.now } name b = (.ok m, st') →
                      st₀.now ≤ st'.now ∧ registryFrame st₀.registry st'.registry
                      ∧ m.branch ∈ allowedBranches ∧ metricsWithin m (st'.now - st₀.now))
                  ∧ (∀ e m st', afterAuth env cfg st₀.now st4.now stX
                      { qm with discovered_ms := stm.now - qs.now, getinfo_ms := st4.now - st3.now } name b = (.error (e, m), st') →
                      st₀.now ≤ st'.now ∧ registryFrame st₀.registry st'.registry
                      ∧ metricsWithin m (st'.now - st₀.now)) := by
                intro stX b hX0 hXframe hXm
                obtain ⟨aok, aerr⟩ := afterAuth_spec env cfg st₀.now st4.now stX
                  { qm with discovered_ms := stm.now - qs.now, getinfo_ms := st4.now - st3.now }
                  name b hX0 h40 hXm
                constructor
                · intro m st' h
                  obtain ⟨a1, a2, a3, a4⟩ := aok m st' h
                  refine ⟨le_trans hX0 a1, registryFrame_trans hXframe a2, ?_, a4⟩
                  rcases a3 with hbr | hbr <;> simp [hbr, allowedBranches]
                · intro e m st' h
                  obtain ⟨a1, a2, a3⟩ := aerr e m st' h
                  exact ⟨le_trans hX0 a1, registryFrame_trans hXframe a2, a3⟩
              split
              · -- access-token auth succeeded
                exact hAA (EngineState.sleep (EngineState.sleep st4 env.accessToken.dt) env.addUserAccessToken.dt) true
                  (le_trans h40 (le_trans (Nat.le_add_right _ _) (Nat.le_add_right _ _)))
                  h3frame
                  (metricsWithin_mono h4m (Nat.sub_le_sub_right
                    (le_trans (Nat.le_add_right _ _) (Nat.le_add_right _ _)) _))
              · -- blob ladder
                simp only [callBlobSetup]
                cases hbs : env.blobSetup.res with
                | error e =>
                  constructor
                  · intro m st' h
                    simp at h
                  · intro e' m st' h
                    simp only [Prod.mk.injEq, Except.error.injEq, Prod.mk.injEq] at h
                    obtain ⟨⟨he, hm⟩, hst⟩ := h
                    subst hm
                    subst hst
                    refine ⟨le_trans h40 (le_trans (Nat.le_add_right _ _)
                      (le_trans (Nat.le_add_right _ _) (Nat.le_add_right _ _))), h3frame, ?_⟩
                    refine metricsWithin_mono h4m (Nat.sub_le_sub_right ?_ _)
                    exact le_trans (Nat.le_add_right _ _)
                      (le_trans (Nat.le_add_right _ _) (Nat.le_add_right _ _))
                | ok u =>
                  dsimp only
                  simp only [callBlobCreds]
                  cases hbc : env.blobCreds.res with
                  | error ep =>
                    exact hAA (EngineState.sleep (EngineState.sleep (EngineState.sleep (EngineState.sleep st4 env.accessToken.dt) env.addUserAccessToken.dt) env.blobSetup.dt) env.blobCreds.dt) false
                      (le_trans h40 (le_trans (Nat.le_add_right _ _) (le_trans (Nat.le_add_right _ _)
                        (le_trans (Nat.le_add_right _ _) (Nat.le_add_right _ _)))))
                      h3frame
                      (metricsWithin_mono h4m (Nat.sub_le_sub_right
                        (le_trans (Nat.le_add_right _ _) (le_trans (Nat.le_add_right _ _)
                          (le_trans (Nat.le_add_right _ _) (Nat.le_add_right _ _)))) _))
                  | ok u2 =>
                    exact hAA (EngineState.sleep (EngineState.sleep (EngineState.sleep (EngineState.sleep (EngineState.sleep st4 env.accessToken.dt) env.addUserAccessToken.dt) env.blobSetup.dt) env.blobCreds.dt) env.addUserBlob.dt) env.addUserBlob.val
                      (le_trans h40 (le_trans (Nat.le_add_right _ _) (le_trans (Nat.le_add_right _ _)
                        (le_trans (Nat.le_add_right _ _) (le_trans (Nat.le_add_right _ _) (Nat.le_add_right _ _))))))
                      h3frame
                      (metricsWithin_mono h4m (Nat.sub_le_sub_right
                        (le_trans (Nat.le_add_right _ _) (le_trans (Nat.le_add_right _ _)
                          (le_trans (Nat.le_add_right _ _) (le_trans (Nat.le_add_right _ _) (Nat.le_add_right _ _))))) _))

/-! ### Concrete scenarios used by the claim witnesses and counterexamples -/

/-- A cloud device visible to the Web API. -/
def kdev : CloudDevice := { id := "D1", name := "Kitchen" }

/-- A registered target with a known IP. -/
def prof : DeviceProfile := { name := "Kitchen", ip := "1.2.3.4" }

def cfgT : AlarmPlaybackConfig := { targets := [prof] }

def okU : ApiResult Unit := { res := .ok () }

/-- An environment where everything succeeds and the device is visible on the
very first `Devices()` call: the Web-API fast path. -/
def envFast : Env :=
  { getDevices := fun _ => { res := .ok [kdev] },
    transfer := fun _ => okU, setVolume := fun _ => okU, play := fun _ => okU,
    currentPlayback := fun _ => { res := .ok (some { deviceId := some "D1" }) },
    fallbackCall := fun _ => okU,
    mdns := { res := .ok {} }, getInfoCall := { val := true },
    addUserAccessToken := { val := true },
    blobSetup := { res := .ok () }, blobCreds := { res := .ok () },
    addUserBlob := { val := false }, ipWake := { res := .ok true },
    accessToken := { res := .ok "tok" } }

/-- Like `envFast`, but the first `Devices()` call raises `"boom"`; the run
recovers on the ip-wake path. -/
def envBoom : Env := { envFast with
  getDevices := fun k => if k = 0 then { res := .error "boom" } else { res := .ok [kdev] } }

/-- A registered target with no known IP (skips the ip-wake phase). -/
def prof2 : DeviceProfile := { name := "Kitchen", ip := "" }

def cfg2 : AlarmPlaybackConfig := { targets := [prof2] }

/-- Fast path misses, ip wake reports failure, mDNS succeeds, the cloud poll
finds the device, `Play` succeeds, but `CurrentPlayback` always reports no
playback: the unconfirmed-playback scenario with a working fallback. -/
def envC3 : Env := { envFast with
  getDevices := fun k => if k = 0 then { res := .ok [] } else { res := .ok [kdev] },
  ipWake := { res := .ok false },
  currentPlayback := fun _ => { res := .ok none },
  mdns := { res := .ok { ip := "9.9.9.9", port := 80, cpath := "/z", instance_name := "inst" } } }

/-- A successful primary run where mDNS discovery takes 1500 ms but getInfo
only 100 ms, so `discovered_ms > getinfo_ms` in the returned metrics. -/
def envC8 : Env := { envFast with
  getDevices := fun k => if k = 0 then { res := .ok [] } else { res := .ok [kdev] },
  mdns := { res := .ok { ip := "9.9.9.9", port := 80, cpath := "/z", instance_name := "inst" }, dt := 1500 },
  getInfoCall := { val := true, dt := 100 } }

/-- `envFast` with `CurrentPlayback` never reporting any playback, for
exercising the unconfirmed-playback tail in isolation. -/
def envPT : Env := { envFast with currentPlayback := fun _ => { res := .ok none } }

/-! ### `play_alarm` top-level lemmas -/

theorem fatalMarker_isInfix (s : String) :
    fatalMarker.data <:+: (fatalMarker ++ ": " ++ s).data := by
  refine ⟨[], (": " ++ s).data, ?_⟩
  show [] ++ fatalMarker.data ++ (": ".data ++ s.data) = (fatalMarker.data ++ ": ".data) ++ s.data
  rw [List.nil_append, List.append_assoc]

/-- `play_alarm` top level: a normal return records one of the four outcome
branches and every per-phase duration fits inside `total_duration_ms`; a
raised error always carries the fatal marker; the registry only evolves by
the allowed writes. -/
theorem playAlarm_spec (env : Env) (cfg : AlarmPlaybackConfig) (st₀ : EngineState)
    (name : String) :
    (∀ m st', playAlarm env cfg st₀ name = (.ok m, st') →
        m.branch ∈ allowedBranches ∧ metricsWithin m m.total_duration_ms
        ∧ registryFrame st₀.registry st'.registry)
    ∧ (∀ e st', playAlarm env cfg st₀ name = (.error e, st') →
        fatalMarker.data <:+: e.data ∧ registryFrame st₀.registry st'.registry) := by
  obtain ⟨hok, herr⟩ := mainFlow_spec env cfg st₀ name
  simp only [playAlarm]
  cases hr : (mainFlow env cfg st₀ name).1 with
  | ok m0 =>
    dsimp only
    have hpair : mainFlow env cfg st₀ name = (.ok m0, (mainFlow env cfg st₀ name).2) :=
      Prod.ext hr rfl
    obtain ⟨o1, o2, o3, o4⟩ := hok m0 _ hpair
    constructor
    · intro m st' h
      simp only [Prod.mk.injEq, Except.ok.injEq] at h
      obtain ⟨hm, hst⟩ := h
      subst hm
      subst hst
      exact ⟨o3, o4, o2⟩
    · intro e st' h
      simp at h
  | error em =>
    dsimp only
    have hpair : mainFlow env cfg st₀ name = (.error em, (mainFlow env cfg st₀ name).2) :=
      Prod.ext hr rfl
    obtain ⟨e1, e2, e3⟩ := herr em.1 em.2 _ hpair
    obtain ⟨rf1, rf2, rf3⟩ := recordFailure_misc (mainFlow env cfg st₀ name).2 name
    split
    · rename_i hinf
      constructor
      · intro m st' h
        simp at h
      · intro e st' h
        simp only [Prod.mk.injEq, Except.error.injEq] at h
        obtain ⟨he, hst⟩ := h
        subst he
        subst hst
        refine ⟨hinf, ?_⟩
        rw [rf2]
        exact e2
    · obtain ⟨f1, f2, f3, f4, fok, ferr⟩ := failover_spec env
        ((mainFlow env cfg st₀ name).2.recordFailure name) em.2 name em.1
      cases hf : (failover env ((mainFlow env cfg st₀ name).2.recordFailure name)
          em.2 name em.1).1 with
      | ok m2 =>
        dsimp only
        have hfp : failover env ((mainFlow env cfg st₀ name).2.recordFailure name) em.2 name em.1
            = (.ok m2, (failover env ((mainFlow env cfg st₀ name).2.recordFailure name) em.2 name em.1).2) :=
          Prod.ext hf rfl
        obtain ⟨hbr, hms, hmem⟩ := fok m2 _ hfp
        constructor
        · intro m st' h
          simp only [Prod.mk.injEq, Except.ok.injEq] at h
          obtain ⟨hm, hst⟩ := h
          subst hm
          subst hst
          refine ⟨by simp [hbr, allowedBranches], ?_, ?_⟩
          · refine metricsWithin_of_msEq hms (metricsWithin_mono e3 ?_)
            refine Nat.sub_le_sub_right ?_ _
            rw [← rf1]
            exact f1
          · rw [f2, rf2]
            exact e2
        · intro e st' h
          simp at h
      | error ep =>
        dsimp only
        have hfp : failover env ((mainFlow env cfg st₀ name).2.recordFailure name) em.2 name em.1
            = (.error (ep.1, ep.2), (failover env ((mainFlow env cfg st₀ name).2.recordFailure name) em.2 name em.1).2) :=
          Prod.ext hf rfl
        obtain ⟨he, hms, hbr⟩ := ferr ep.1 ep.2 _ hfp
        constructor
        · intro m st' h
          simp at h
        · intro e st' h
          simp only [Prod.mk.injEq, Except.error.injEq] at h
          obtain ⟨hee, hst⟩ := h
          subst hee
          subst hst
          refine ⟨?_, ?_⟩
          · rw [he]
            exact fatalMarker_isInfix em.1
          · rw [f2, rf2]
            exact e2

/-- If no `CurrentPlayback` answer ever reports the target device id, the
`verify_device_ready` poll can only return `false`. -/
theorem verifyAux_never (env : Env) (deviceId : String) (deadline : Nat)
    (h : ∀ k info, (env.currentPlayback k).res = .ok info →
      playbackMatches info deviceId = false) :
    ∀ fuel st, (verifyAux env deviceId deadline fuel st).1 = false := by
  intro fuel
  induction fuel with
  | zero => intro st; rfl
  | succ fuel ih =>
    intro st
    unfold verifyAux
    split
    · simp only [callCurrentPlayback]
      cases hc : (env.currentPlayback st.nCurrent).res with
      | ok info =>
        simp only [h st.nCurrent info hc, Bool.false_eq_true, if_false]
        exact ih _
      | error e =>
        exact ih _
    · rfl

/-- Under the same hypothesis, the T+2s confirmation loop never confirms. -/
theorem confirmLoop_never (env : Env) (deviceId : String) (deadline : Nat)
    (h : ∀ k info, (env.currentPlayback k).res = .ok info →
      playbackMatches info deviceId = false) :
    ∀ fuel st, (confirmLoop env deviceId deadline fuel st).1 = false := by
  intro fuel
  induction fuel with
  | zero => intro st; rfl
  | succ fuel ih =>
    intro st
    unfold confirmLoop
    split
    · simp only [verifyDeviceReady, verifyAux_never env deviceId _ h 3 st,
        Bool.false_eq_true, if_false]
      exact ih _
    · rfl

/-- C3: amended — in every run reaching the primary tail where `Transfer` and
`Play` succeed but `CurrentPlayback` never reports the target device id, the
fallback is invoked with reason `play_not_confirmed_t2` (the returned metrics
carry branch `"fallback"` and the error entry, or the raised error carries the
fatal marker with that reason) — but the circuit-breaker state is NOT
touched: `_failover` is called directly at lines 552-556 without
`_record_failure`, so the breaker count is unchanged on this path. -/
theorem play_not_confirmed_fallback (env : Env) (cfg : AlarmPlaybackConfig)
    (st : EngineState) (m : PhaseMetrics) (name : String) (d : CloudDevice)
    (hnc : ∀ k info, (env.currentPlayback k).res = .ok info →
      playbackMatches info d.id = false)
    (hstage : (stageDevice env (st.sleep cfg.timings.debounceMs)).1 = .ok ())
    (hplay : (callPlay env (stageDevice env (st.sleep cfg.timings.debounceMs)).2).1 = .ok ()) :
    (∀ m' st', primaryTail env cfg st m name d = (.ok m', st') →
        m'.branch = "fallback"
        ∧ ("Primary failed: play_not_confirmed_t2", "fallback") ∈ m'.errors
        ∧ st'.breakers = st.breakers)
    ∧ (∀ e m' st', primaryTail env cfg st m name d = (.error (e, m'), st') →
        e = fatalMarker ++ ": " ++ "play_not_confirmed_t2"
        ∧ st'.breakers = st.breakers) := by
  simp only [primaryTail]
  rw [hstage]
  dsimp only
  rw [hplay]
  dsimp only
  set pl2 := (callPlay env (stageDevice env (st.sleep cfg.timings.debounceMs)).2).2 with hpl2
  set c := confirmLoop env d.id (pl2.now + cfg.timings.failoverFireMs)
    (cfg.timings.failoverFireMs + 2) pl2 with hc
  have hcf : c.1 = false := by
    rw [hc]
    exact confirmLoop_never env d.id _ hnc _ _
  rw [hcf]
  simp only [Bool.false_eq_true, if_false]
  have hbrc : c.2.breakers = st.breakers := by
    rw [hc, (confirmLoop_spec env d.id _ _ _).2.2.1, hpl2]
    show (stageDevice env (EngineState.sleep st cfg.timings.debounceMs)).2.breakers = st.breakers
    rw [(stageDevice_spec env _).2.2.1]
    rfl
  generalize ({ m with play_ms := pl2.now - (stageDevice env (st.sleep cfg.timings.debounceMs)).2.now } : PhaseMetrics) = m1
  obtain ⟨f1, f2, f3, f4, fok, ferr⟩ := failover_spec env c.2 m1 name "play_not_confirmed_t2"
  have hps : ("Primary failed: " ++ "play_not_confirmed_t2" : String)
      = "Primary failed: play_not_confirmed_t2" := rfl
  constructor
  · intro m' st' h
    obtain ⟨hbr, hms, hmem⟩ := fok m' st' h
    have hsnd : (failover env c.2 m1 name "play_not_confirmed_t2").2 = st' :=
      congrArg Prod.snd h
    subst hsnd
    refine ⟨hbr, ?_, ?_⟩
    · rw [hps] at hmem
      exact hmem
    · rw [f3, hbrc]
  · intro e m' st' h
    obtain ⟨he, hms, hbr⟩ := ferr e m' st' h
    have hsnd : (failover env c.2 m1 name "play_not_confirmed_t2").2 = st' :=
      congrArg Prod.snd h
    subst hsnd
    exact ⟨he, by rw [f3, hbrc]⟩

/-- The unconfirmed-playback tail run on the concrete scenario. -/
def primaryTailRunC3 : (Except (String × PhaseMetrics) PhaseMetrics) × EngineState :=
  primaryTail envPT cfgT (initEngineState cfgT) {} "Kitchen" kdev

def MPT : PhaseMetrics :=
  match primaryTailRunC3.1 with
  | .ok m => m
  | .error _ => {}

theorem play_not_confirmed_fallback_witness :
    MPT.branch = "fallback"
    ∧ ("Primary failed: play_not_confirmed_t2", "fallback") ∈ MPT.errors
    ∧ primaryTailRunC3.2.breakers = (initEngineState cfgT).breakers :=
  (play_not_confirmed_fallback envPT cfgT (initEngineState cfgT) {} "Kitchen" kdev
    (fun k info h => by
      injection h with h2
      subst h2
      rfl)
    rfl rfl).1 MPT primaryTailRunC3.2 rfl

/-- C3 counterexample: a full `play_alarm` run where `Play` succeeds but the
playback is never confirmed within the 2-second window: the fallback fires
with reason `play_not_confirmed_t2` and the run returns branch `"fallback"`,
yet the target's circuit-breaker failure count afterwards is 0 — the claimed
increment never happens when the fallback succeeds. -/
theorem unconfirmed_play_breaker_counterexample :
    (playAlarm envC3 cfgT (initEngineState cfgT) "Kitchen").1
      = .ok { cloud_visible_ms := 2000, total_duration_ms := 4800, branch := "fallback", errors := [("Primary failed: play_not_confirmed_t2", "fallback")] }
    ∧ breakerCount (playAlarm envC3 cfgT (initEngineState cfgT) "Kitchen").2 "Kitchen" = 0 :=
  ⟨rfl, rfl⟩

/-- Fast-path evolution of phase 1: with a device visible on the first
`Devices()` call and `Transfer`/`Play` succeeding, phase 1 returns `.inl`
with branch `webapi_direct`, having issued exactly one call on each of the
devices/transfer/volume/play oracles and none on the playback oracle. -/
theorem phase1_fast (env : Env) (st : EngineState) (name : String)
    (L : List CloudDevice) (d : CloudDevice)
    (hdev : (env.getDevices st.nDevices).res = .ok L)
    (hpick : pickDevice st.registry L name = some d)
    (htr : (env.transfer st.nTransfer).res = .ok ())
    (hpl : (env.play st.nPlay).res = .ok ()) :
    ∃ m stf, phase1 env st name = .inl (m, stf) ∧ m.branch = "webapi_direct"
      ∧ stf.nDevices = st.nDevices + 1 ∧ stf.nTransfer = st.nTransfer + 1
      ∧ stf.nVolume = st.nVolume + 1 ∧ stf.nPlay = st.nPlay + 1
      ∧ stf.nCurrent = st.nCurrent := by
  obtain ⟨l1, l2, l3, l4, l5, l6, l7, l8, l9⟩ := learnIfRegistered_misc
    ({ st with now := st.now + (env.getDevices st.nDevices).dt, nDevices := st.nDevices + 1 })
    name d.name
  simp only [phase1, callGetDevices]
  rw [hdev]
  dsimp only
  rw [hpick]
  dsimp only
  simp only [stageDevice, callTransfer, callVolume, callPlay, EngineState.sleep, l5]
  rw [htr]
  dsimp only
  simp only [l7]
  rw [hpl]
  dsimp only
  refine ⟨_, _, rfl, rfl, ?_, ?_, ?_, ?_, ?_⟩
  · simp only [l4]
  · simp only [l5]
  · simp only [l6]
  · simp only [l7]
  · simp only [l8]

/-- C7: amended — on the fast path (a matching device on the first
`Devices()` call, successful `Transfer` and `Play`), `play_alarm` returns
branch `webapi_direct` having issued exactly one `Devices`, one `Transfer`,
one `Volume`, one `Play` — and NO `CurrentPlayback` confirmation poll: lines
192-244 return directly after `Play` without the phase-7 confirmation. -/
theorem fast_path_counts (env : Env) (cfg : AlarmPlaybackConfig) (st : EngineState)
    (name : String) (L : List CloudDevice) (d : CloudDevice)
    (hdev : (env.getDevices st.nDevices).res = .ok L)
    (hpick : pickDevice st.registry L name = some d)
    (htr : (env.transfer st.nTransfer).res = .ok ())
    (hpl : (env.play st.nPlay).res = .ok ()) :
    (∃ m, (playAlarm env cfg st name).1 = .ok m ∧ m.branch = "webapi_direct")
    ∧ (playAlarm env cfg st name).2.nDevices = st.nDevices + 1
    ∧ (playAlarm env cfg st name).2.nTransfer = st.nTransfer + 1
    ∧ (playAlarm env cfg st name).2.nVolume = st.nVolume + 1
    ∧ (playAlarm env cfg st name).2.nPlay = st.nPlay + 1
    ∧ (playAlarm env cfg st name).2.nCurrent = st.nCurrent := by
  obtain ⟨m, stf, hp1, hbr, c1, c2, c3, c4, c5⟩ := phase1_fast env st name L d hdev hpick htr hpl
  have hrun : playAlarm env cfg st name
      = (.ok { m with total_duration_ms := stf.now - st.now }, stf) := by
    simp only [playAlarm, mainFlow]
    rw [hp1]
  refine ⟨⟨{ m with total_duration_ms := stf.now - st.now }, ?_, hbr⟩, ?_, ?_, ?_, ?_, ?_⟩
  · rw [hrun]
  · rw [hrun]
    exact c1
  · rw [hrun]
    exact c2
  · rw [hrun]
    exact c3
  · rw [hrun]
    exact c4
  · rw [hrun]
    exact c5

theorem fast_path_counts_witness :
    (∃ m, (playAlarm envFast cfgT (initEngineState cfgT) "Kitchen").1 = .ok m
      ∧ m.branch = "webapi_direct")
    ∧ (playAlarm envFast cfgT (initEngineState cfgT) "Kitchen").2.nDevices = 1
    ∧ (playAlarm envFast cfgT (initEngineState cfgT) "Kitchen").2.nTransfer = 1
    ∧ (playAlarm envFast cfgT (initEngineState cfgT) "Kitchen").2.nVolume = 1
    ∧ (playAlarm envFast cfgT (initEngineState cfgT) "Kitchen").2.nPlay = 1
    ∧ (playAlarm envFast cfgT (initEngineState cfgT) "Kitchen").2.nCurrent = 0 :=
  fast_path_counts envFast cfgT (initEngineState cfgT) "Kitchen" [kdev] kdev rfl rfl rfl rfl

/-- The metrics returned by the concrete fast-path run. -/
def MFast : PhaseMetrics := { total_duration_ms := 200, branch := "webapi_direct" }

/-- C7 counterexample: on the concrete fast-path run the playback oracle is
never consulted — the final `CurrentPlayback` call counter is 0, refuting
"at least one CurrentPlayback confirmation poll ... before returning
success". -/
theorem fast_path_no_poll_counterexample :
    (playAlarm envFast cfgT (initEngineState cfgT) "Kitchen").1 = .ok MFast
    ∧ MFast.branch = "webapi_direct"
    ∧ (playAlarm envFast cfgT (initEngineState cfgT) "Kitchen").2.nCurrent = 0 :=
  ⟨rfl, rfl, rfl⟩

/-- C2: amended — every `play_alarm` invocation either returns a completed
`PhaseMetrics` whose branch records the outcome (one of `webapi_direct`,
`primary_ip_wakeup`, `primary`, `fallback`) or raises an error carrying the
fatal fallback-exhausted marker; no other exception escapes.  (The claim's
"every per-phase error is captured into PhaseMetrics.errors" does not hold —
see the counterexample.) -/
theorem play_alarm_terminal (env : Env) (cfg : AlarmPlaybackConfig)
    (st₀ : EngineState) (name : String) :
    (∀ m st', playAlarm env cfg st₀ name = (.ok m, st') → m.branch ∈ allowedBranches)
    ∧ (∀ e st', playAlarm env cfg st₀ name = (.error e, st') →
        fatalMarker.data <:+: e.data) := by
  obtain ⟨hok, herr⟩ := playAlarm_spec env cfg st₀ name
  constructor
  · intro m st' h
    exact (hok m st' h).1
  · intro e st' h
    exact (herr e st' h).1

/-- The final engine state of the concrete fast-path run. -/
def SFast : EngineState := (playAlarm envFast cfgT (initEngineState cfgT) "Kitchen").2

theorem play_alarm_terminal_witness :
    MFast.branch ∈ allowedBranches :=
  (play_alarm_terminal envFast cfgT (initEngineState cfgT) "Kitchen").1 MFast SFast rfl

/-- The metrics of the run whose first `Devices()` call raises `"boom"`. -/
def MBoom : PhaseMetrics :=
  { cloud_visible_ms := 700, total_duration_ms := 700, branch := "primary_ip_wakeup" }

/-- C2 counterexample: the first `Devices()` call raises `"boom"`, the run
recovers on the ip-wake path and returns successfully — with `errors = []`.
The phase-1 exception is only logged (line 248), never recorded through
`add_error`, refuting "every per-phase error is captured into
PhaseMetrics.errors". -/
theorem swallowed_phase_error_counterexample :
    (envBoom.getDevices 0).res = .error "boom"
    ∧ (playAlarm envBoom cfgT (initEngineState cfgT) "Kitchen").1 = .ok MBoom
    ∧ MBoom.errors = [] :=
  ⟨rfl, rfl, rfl⟩

/-- C8: amended — the `PhaseMetrics` fields are per-phase durations, not
cumulative timestamps: in every successful run each of `discovered_ms`,
`getinfo_ms`, `adduser_ms`, `cloud_visible_ms` and `play_ms` is at most
`total_duration_ms`, but the claimed chain
`discovered ≤ getinfo ≤ adduser ≤ cloud_visible ≤ play` does not hold. -/
theorem play_alarm_metrics_within_total (env : Env) (cfg : AlarmPlaybackConfig)
    (st₀ : EngineState) (name : String) (m : PhaseMetrics) (st' : EngineState)
    (h : playAlarm env cfg st₀ name = (.ok m, st')) :
    metricsWithin m m.total_duration_ms :=
  ((playAlarm_spec env cfg st₀ name).1 m st' h).2.1

theorem play_alarm_metrics_within_total_witness :
    metricsWithin MFast MFast.total_duration_ms :=
  play_alarm_metrics_within_total envFast cfgT (initEngineState cfgT) "Kitchen"
    MFast SFast rfl

/-- The metrics of the slow-discovery successful primary run. -/
def MC8 : PhaseMetrics :=
  { discovered_ms := 1500, getinfo_ms := 100, adduser_ms := 0,
    cloud_visible_ms := 3600, play_ms := 0, total_duration_ms := 4300,
    branch := "primary", errors := [] }

/-- C8 counterexample: a successful run where mDNS discovery took 1500 ms and
getInfo 100 ms: `discovered_ms = 1500 > 100 = getinfo_ms`, refuting the
claimed monotone chain — the fields are phase durations, not timestamps. -/
theorem metrics_not_monotone_counterexample :
    (playAlarm envC8 cfg2 (initEngineState cfg2) "Kitchen").1 = .ok MC8
    ∧ ¬ MC8.discovered_ms ≤ MC8.getinfo_ms :=
  ⟨rfl, by decide⟩

/-- C4: amended — during `play_alarm` the registry profiles evolve only by
the frame `profileFrame`: `spotify_device_names` may grow by appending newly
seen cloud names, and `instance_name` may be set when it was previously
empty (lines 356-360); `name`, `ip`, `port`, `cpath`, `volume_preset` and
`max_wake_wait_s` are preserved, and no profile is added or removed. -/
theorem play_alarm_registry_frame (env : Env) (cfg : AlarmPlaybackConfig)
    (st₀ : EngineState) (name : String) :
    registryFrame st₀.registry (playAlarm env cfg st₀ name).2.registry := by
  obtain ⟨hok, herr⟩ := playAlarm_spec env cfg st₀ name
  cases hr : (playAlarm env cfg st₀ name).1 with
  | ok m =>
    exact ((hok m _ (Prod.ext hr rfl)).2.2)
  | error e =>
    exact (herr e _ (Prod.ext hr rfl)).2

theorem play_alarm_registry_frame_witness :
    registryFrame (initEngineState cfgT).registry
      (playAlarm envFast cfgT (initEngineState cfgT) "Kitchen").2.registry :=
  play_alarm_registry_frame envFast cfgT (initEngineState cfgT) "Kitchen"

/-- C4 counterexample: the run of the slow-discovery scenario writes the
discovered mDNS `instance_name` into the stored profile (orchestrator.py
lines 356-360): the field changes from `""` to `"inst"`, refuting "appending
to spotify_device_names is the ONLY write". -/
theorem instance_name_write_counterexample :
    (lookupProfile (initEngineState cfg2).registry "Kitchen").map DeviceProfile.instance_name
      = some ""
    ∧ (lookupProfile (playAlarm envC8 cfg2 (initEngineState cfg2) "Kitchen").2.registry
        "Kitchen").map DeviceProfile.instance_name = some "inst" :=
  ⟨rfl, rfl⟩

end Wakeify
